import Mathlib

/-!
Verification development for the ALICE-Animation temporal composition engine.

The Rust sources (`director.rs`, `episode.rs`, `scene.rs`, `camera.rs`,
`npr.rs`) are shallowly embedded below.  `f32` scalars are modelled as
rationals (`ℚ`), machine integers (`u32`, `usize`) as `Nat`, and byte buffers
as `List Nat` with every entry below 256.  External collaborators
(the `alice_sdf` keyframe/shape library, the `glam` vector algebra and the
`bincode` body codec) are modelled from the specification's interface
contracts; each such definition is marked `Modelled from the spec:` in its
doc string.
-/

namespace Alice

/-! ## Vector and quaternion algebra (external collaborator `glam`) -/

/-- Modelled from the spec: the external numeric vector type (`glam::Vec3`),
an opaque algebra with componentwise operations; `f32` scalars become `ℚ`. -/
structure Vec3 where
  x : ℚ
  y : ℚ
  z : ℚ
deriving DecidableEq

/-- Modelled from the spec: the external quaternion type (`glam::Quat`). -/
structure Quat where
  x : ℚ
  y : ℚ
  z : ℚ
  w : ℚ
deriving DecidableEq

instance : Add Vec3 := ⟨fun a b => ⟨a.x + b.x, a.y + b.y, a.z + b.z⟩⟩

instance : Sub Vec3 := ⟨fun a b => ⟨a.x - b.x, a.y - b.y, a.z - b.z⟩⟩

/-- Componentwise product, as `glam`'s `Vec3 * Vec3`. -/
instance : Mul Vec3 := ⟨fun a b => ⟨a.x * b.x, a.y * b.y, a.z * b.z⟩⟩

/-- Scalar product `v * s` (as `glam`'s `Vec3 * f32`). -/
def Vec3.scale (v : Vec3) (s : ℚ) : Vec3 := ⟨v.x * s, v.y * s, v.z * s⟩

def Vec3.dot (a b : Vec3) : ℚ := a.x * b.x + a.y * b.y + a.z * b.z

def Vec3.cross (a b : Vec3) : Vec3 :=
  ⟨a.y * b.z - a.z * b.y, a.z * b.x - a.x * b.z, a.x * b.y - a.y * b.x⟩

def Vec3.zero : Vec3 := ⟨0, 0, 0⟩

def Vec3.one : Vec3 := ⟨1, 1, 1⟩

def Quat.identity : Quat := ⟨0, 0, 0, 1⟩

/-- Hamilton product, following `glam::Quat::mul_quat`. -/
instance : Mul Quat :=
  ⟨fun a b =>
    ⟨a.w * b.x + a.x * b.w + a.y * b.z - a.z * b.y,
     a.w * b.y - a.x * b.z + a.y * b.w + a.z * b.x,
     a.w * b.z + a.x * b.y - a.y * b.x + a.z * b.w,
     a.w * b.w - a.x * b.x - a.y * b.y - a.z * b.z⟩⟩

/-- Rotation of a vector by a quaternion, following `glam::Quat::mul_vec3`:
`rhs * (w*w - b·b) + b * (rhs·b * 2) + (b × rhs) * (w * 2)` with
`b = (q.x, q.y, q.z)`. -/
instance : HMul Quat Vec3 Vec3 :=
  ⟨fun q v =>
    let b : Vec3 := ⟨q.x, q.y, q.z⟩
    let b2 := b.dot b
    v.scale (q.w * q.w - b2) + b.scale (v.dot b * 2) + (b.cross v).scale (q.w * 2)⟩

/-! ## Keyframe timelines (external collaborator `alice_sdf::animation`) -/

/-- Modelled from the spec: a keyframe is a `(time, value)` sample of a
named channel (`alice_sdf::animation::Keyframe`). -/
structure Keyframe where
  time : ℚ
  value : ℚ
deriving DecidableEq

/-- Modelled from the spec: a named channel holding an ordered list of
`(time, value)` samples (`alice_sdf::animation::Track`). -/
structure Track where
  name : String
  keyframes : List Keyframe
deriving DecidableEq

/-- Modelled from the spec: a named container of channels
(`alice_sdf::animation::Timeline`). -/
structure Timeline where
  name : String
  tracks : List Track
deriving DecidableEq

def Track.new (name : String) : Track := ⟨name, []⟩

/-- Modelled from the spec: `add-sample(time, value) with automatic
time-ordering` — ordered insert, placing a new sample after existing samples
with the same time. -/
def insertKeyframe : List Keyframe → Keyframe → List Keyframe
  | [], k => [k]
  | k' :: ks, k => if k.time < k'.time then k :: k' :: ks else k' :: insertKeyframe ks k

def Track.add_keyframe (tr : Track) (k : Keyframe) : Track :=
  ⟨tr.name, insertKeyframe tr.keyframes k⟩

/-- Linear interpolation between two consecutive keyframes. -/
def lerpKeys (k k' : Keyframe) (t : ℚ) : ℚ :=
  k.value + (t - k.time) * (k'.value - k.value) / (k'.time - k.time)

/-- Walk a sorted keyframe list: clamp after the last sample, interpolate
between consecutive samples. -/
def sampleSorted (k : Keyframe) : List Keyframe → ℚ → ℚ
  | [], _ => k.value
  | k' :: ks, t => if t < k'.time then lerpKeys k k' t else sampleSorted k' ks t

/-- Modelled from the spec: deterministic, pure per-channel evaluation —
clamped piecewise-linear interpolation over the ordered samples; `none`
when the channel holds no samples. -/
def Track.sample (tr : Track) (t : ℚ) : Option ℚ :=
  match tr.keyframes with
  | [] => none
  | k :: ks => some (if t < k.time then k.value else sampleSorted k ks t)

/-- Modelled from the spec: `Track::evaluate` returns a plain value; an empty
channel yields 0. -/
def Track.evaluate (tr : Track) (t : ℚ) : ℚ := (tr.sample t).getD 0

def Timeline.new (name : String) : Timeline := ⟨name, []⟩

def Timeline.add_track (tl : Timeline) (tr : Track) : Timeline :=
  ⟨tl.name, tl.tracks ++ [tr]⟩

/-- Modelled from the spec: `evaluate-channel-by-name(time) → optional value`. -/
def Timeline.get_value (tl : Timeline) (name : String) (t : ℚ) : Option ℚ :=
  (tl.tracks.find? (fun tr => tr.name == name)).bind (fun tr => tr.sample t)

/-! ## Shapes (external collaborator `alice_sdf::SdfNode`) -/

/-- Modelled from the spec: the opaque implicit-surface value type
(`alice_sdf::SdfNode`), restricted to the constructors this repository uses.
`animatedAt base tl t` stands for the collaborator's
`AnimatedSdf::new(base, tl).evaluate_at(t)`, kept opaque. -/
inductive SdfNode where
  | sphere (radius : ℚ)
  | box3d (hx hy hz : ℚ)
  | union (a b : SdfNode)
  | animatedAt (base : SdfNode) (tl : Timeline) (t : ℚ)
deriving DecidableEq

/-! ## Transcendental stand-ins

The camera code calls `f32` `sin`, `cos` and `sqrt`.  Those are external
(platform/libm) functions over a countable type; the claims treat them
symbolically.  They are modelled by definite executable stand-ins so that the
development stays computable. -/

/-- Modelled from the spec: stand-in for `f32` sine (7th-order Taylor
polynomial); the claims about camera shake treat sine symbolically. -/
def fsin (x : ℚ) : ℚ := x - x ^ 3 / 6 + x ^ 5 / 120 - x ^ 7 / 5040

/-- Modelled from the spec: stand-in for `f32` cosine (6th-order Taylor
polynomial). -/
def fcos (x : ℚ) : ℚ := 1 - x ^ 2 / 2 + x ^ 4 / 24 - x ^ 6 / 720

/-- One Newton step for the square-root stand-in. -/
def fsqrtStep (q x : ℚ) : ℚ := if x = 0 then 0 else (x + q / x) / 2

/-- Modelled from the spec: stand-in for `f32` square root (four Newton
steps); only used by the `Dolly` preset's `normalize_or_zero`. -/
def fsqrt (q : ℚ) : ℚ :=
  if q ≤ 0 then 0 else fsqrtStep q (fsqrtStep q (fsqrtStep q (fsqrtStep q ((q + 1) / 2))))

/-- The exact rational value of the `f32` constant `std::f32::consts::TAU`. -/
def TAU : ℚ := 13176795 / 2097152

/-- The exact rational value of the `f32` constant
`std::f32::consts::FRAC_PI_4`. -/
def FRAC_PI_4 : ℚ := 13176795 / 16777216

def Vec3.length (v : Vec3) : ℚ := fsqrt (v.dot v)

/-- Modelled from the spec: `glam`'s `normalize_or_zero` (zero vector if the
length is zero). -/
def Vec3.normalize_or_zero (v : Vec3) : Vec3 :=
  let len := v.length
  if len = 0 then Vec3.zero else v.scale (1 / len)

/-! ## Camera (`camera.rs`) -/

/-- Evaluated camera state at a single instant (`CameraState`). -/
structure CameraState where
  position : Vec3
  target : Vec3
  fov : ℚ
deriving DecidableEq

def CameraState.default : CameraState :=
  { position := ⟨0, 0, 5⟩, target := Vec3.zero, fov := FRAC_PI_4 }

/-- Forward direction vector (`CameraState::forward`). -/
def CameraState.forward (s : CameraState) : Vec3 :=
  (s.target - s.position).normalize_or_zero

/-- Camera work presets (`CameraWork`). -/
inductive CameraWork where
  | static
  | pan (speed : ℚ)
  | tilt (speed : ℚ)
  | dolly (speed : ℚ)
  | zoom (target_fov : ℚ)
  | orbit (radius : ℚ) (speed : ℚ)
  | shake (amplitude : ℚ) (frequency : ℚ)
deriving DecidableEq

/-- Animated camera track with keyframed position, target, and FOV
(`CameraTrack`). -/
structure CameraTrack where
  position_timeline : Timeline
  target_timeline : Timeline
  fov_track : Track
  shake_amplitude : ℚ
  shake_frequency : ℚ
deriving DecidableEq

/-- `CameraTrack::default`. -/
def CameraTrack.default : CameraTrack :=
  let px := (Track.new "position.x").add_keyframe ⟨0, 0⟩
  let py := (Track.new "position.y").add_keyframe ⟨0, 0⟩
  let pz := (Track.new "position.z").add_keyframe ⟨0, 5⟩
  let pos_tl := (((Timeline.new "camera_position").add_track px).add_track py).add_track pz
  let tx := (Track.new "target.x").add_keyframe ⟨0, 0⟩
  let ty := (Track.new "target.y").add_keyframe ⟨0, 0⟩
  let tz := (Track.new "target.z").add_keyframe ⟨0, 0⟩
  let tgt_tl := (((Timeline.new "camera_target").add_track tx).add_track ty).add_track tz
  let fov := (Track.new "fov").add_keyframe ⟨0, FRAC_PI_4⟩
  { position_timeline := pos_tl, target_timeline := tgt_tl, fov_track := fov,
    shake_amplitude := 0, shake_frequency := 0 }

/-- `CameraTrack::add_keyframe`: writes one sample into each of the seven
channels at `time`; each named track receives the matching component. -/
def CameraTrack.add_keyframe (tr : CameraTrack) (time : ℚ) (position target : Vec3)
    (fov : ℚ) : CameraTrack :=
  { position_timeline :=
      ⟨tr.position_timeline.name,
        tr.position_timeline.tracks.map (fun trk =>
          if trk.name == "position.x" then trk.add_keyframe ⟨time, position.x⟩
          else if trk.name == "position.y" then trk.add_keyframe ⟨time, position.y⟩
          else if trk.name == "position.z" then trk.add_keyframe ⟨time, position.z⟩
          else trk)⟩,
    target_timeline :=
      ⟨tr.target_timeline.name,
        tr.target_timeline.tracks.map (fun trk =>
          if trk.name == "target.x" then trk.add_keyframe ⟨time, target.x⟩
          else if trk.name == "target.y" then trk.add_keyframe ⟨time, target.y⟩
          else if trk.name == "target.z" then trk.add_keyframe ⟨time, target.z⟩
          else trk)⟩,
    fov_track := tr.fov_track.add_keyframe ⟨time, fov⟩,
    shake_amplitude := tr.shake_amplitude,
    shake_frequency := tr.shake_frequency }

/-- `CameraTrack::evaluate`: samples the seven channels (with the
component-specific fallbacks), then adds the shake offset to position when
the amplitude is positive. -/
def CameraTrack.evaluate (tr : CameraTrack) (time : ℚ) : CameraState :=
  let px := (tr.position_timeline.get_value "position.x" time).getD 0
  let py := (tr.position_timeline.get_value "position.y" time).getD 0
  let pz := (tr.position_timeline.get_value "position.z" time).getD 5
  let tx := (tr.target_timeline.get_value "target.x" time).getD 0
  let ty := (tr.target_timeline.get_value "target.y" time).getD 0
  let tz := (tr.target_timeline.get_value "target.z" time).getD 0
  let fov := tr.fov_track.evaluate time
  let position : Vec3 :=
    if tr.shake_amplitude > 0 then
      let freq_tau := tr.shake_frequency * TAU
      let shake_x := fsin (time * freq_tau) * tr.shake_amplitude
      let shake_y := fcos (time * freq_tau * 13 / 10 + 0) * tr.shake_amplitude * (7 / 10)
      ⟨px + shake_x, py + shake_y, pz⟩
    else ⟨px, py, pz⟩
  { position := position, target := ⟨tx, ty, tz⟩, fov := fov }

/-- `CameraTrack::apply_preset`: synthesizes keyframes from the current
state at `start` (`Shake` just sets the two scalar fields). -/
def CameraTrack.apply_preset (tr : CameraTrack) (work : CameraWork) (start duration : ℚ) :
    CameraTrack :=
  let e := start + duration
  match work with
  | .static => tr
  | .pan speed =>
    let current := tr.evaluate start
    let tr := tr.add_keyframe start current.position current.target current.fov
    let offset : Vec3 := ⟨speed * duration, 0, 0⟩
    tr.add_keyframe e (current.position + offset) (current.target + offset) current.fov
  | .tilt speed =>
    let current := tr.evaluate start
    let tr := tr.add_keyframe start current.position current.target current.fov
    let offset : Vec3 := ⟨0, speed * duration, 0⟩
    tr.add_keyframe e current.position (current.target + offset) current.fov
  | .dolly speed =>
    let current := tr.evaluate start
    let dir := current.forward
    let tr := tr.add_keyframe start current.position current.target current.fov
    tr.add_keyframe e (current.position + (dir.scale speed).scale duration)
      current.target current.fov
  | .zoom target_fov =>
    let current := tr.evaluate start
    let tr := tr.add_keyframe start current.position current.target current.fov
    tr.add_keyframe e current.position current.target target_fov
  | .orbit radius speed =>
    let current := tr.evaluate start
    (List.range 9).foldl (fun acc i =>
      let t := start + duration * i / 8
      let angle := speed * (t - start)
      let pos := current.target + (⟨radius * fcos angle, current.position.y,
        radius * fsin angle⟩ : Vec3)
      acc.add_keyframe t pos current.target current.fov) tr
  | .shake amplitude frequency =>
    { tr with shake_amplitude := amplitude, shake_frequency := frequency }

/-! ## Scene graph (`scene.rs`) -/

/-- Stack-allocated transform (`ActorTransform`). -/
structure ActorTransform where
  position : Vec3
  rotation : Quat
  scale : Vec3
deriving DecidableEq

def ActorTransform.default : ActorTransform :=
  { position := Vec3.zero, rotation := Quat.identity, scale := Vec3.one }

/-- Combine parent and child transforms (`ActorTransform::combine`). -/
def ActorTransform.combine (p : ActorTransform) (child : ActorTransform) : ActorTransform :=
  { position := p.position + p.rotation * (p.scale * child.position),
    rotation := p.rotation * child.rotation,
    scale := p.scale * child.scale }

/-- A single actor in the scene (`Actor`); `ActorId` is modelled as `Nat`. -/
structure Actor where
  name : String
  base_sdf : SdfNode
  timeline : Option Timeline
  local_transform : ActorTransform
  parent : Option Nat
  visible : Bool
deriving DecidableEq

def Actor.new (name : String) (sdf : SdfNode) : Actor :=
  { name := name, base_sdf := sdf, timeline := none,
    local_transform := ActorTransform.default, parent := none, visible := true }

def Actor.with_timeline (a : Actor) (tl : Timeline) : Actor := { a with timeline := some tl }

def Actor.with_transform (a : Actor) (t : ActorTransform) : Actor :=
  { a with local_transform := t }

def Actor.with_parent (a : Actor) (parent : Nat) : Actor := { a with parent := some parent }

/-- `Actor::evaluate_sdf`: with a timeline, the collaborator samples the
animated shape at `time` (kept opaque as `SdfNode.animatedAt`); otherwise the
static base shape. -/
def Actor.evaluate_sdf (a : Actor) (time : ℚ) : SdfNode :=
  match a.timeline with
  | some tl => SdfNode.animatedAt a.base_sdf tl time
  | none => a.base_sdf

/-- Scene graph with slot storage (`SceneGraph`). -/
structure SceneGraph where
  actors : List (Option Actor)
  next_id : Nat
  root_actors : List Nat
deriving DecidableEq

def SceneGraph.new : SceneGraph := { actors := [], next_id := 0, root_actors := [] }

/-- `SceneGraph::add_actor`: assigns the next id, registers parentless actors
as roots, grows the slot list as needed and stores the actor at its id. -/
def SceneGraph.add_actor (g : SceneGraph) (a : Actor) : SceneGraph :=
  let id := g.next_id
  let roots := if a.parent.isNone then g.root_actors ++ [id] else g.root_actors
  let actors :=
    if g.actors.length ≤ id then
      g.actors ++ List.replicate (id + 1 - g.actors.length) none
    else g.actors
  { actors := actors.set id (some a), next_id := id + 1, root_actors := roots }

/-- `SceneGraph::get_actor` (out-of-range and vacated slots give `none`). -/
def SceneGraph.get_actor (g : SceneGraph) (id : Nat) : Option Actor :=
  (g.actors.getD id none)

/-- `SceneGraph::get_world_transform`, with an explicit recursion budget:
the Rust recursion is unbounded by construction, so the embedding returns
`none` when the budget is exhausted (which happens exactly on unboundedly
recursive parent chains). -/
def SceneGraph.get_world_transform (g : SceneGraph) : Nat → Nat → Option ActorTransform
  | 0, _ => none
  | fuel + 1, id =>
    match g.get_actor id with
    | none => some ActorTransform.default
    | some a =>
      match a.parent with
      | none => some a.local_transform
      | some parent_id =>
        (g.get_world_transform fuel parent_id).map (fun pw => pw.combine a.local_transform)

/-- `SceneGraph::actor_count`. -/
def SceneGraph.actor_count (g : SceneGraph) : Nat := g.actors.countP (fun s => s.isSome)

/-- The visible, present actors' evaluated shapes, in ascending slot order. -/
def SceneGraph.visibleNodes (g : SceneGraph) (time : ℚ) : List SdfNode :=
  g.actors.filterMap (fun slot =>
    slot.bind (fun a => if a.visible then some (a.evaluate_sdf time) else none))

/-- `SceneGraph::evaluate_scene`: fold all visible shapes into a union,
falling back to a unit sphere when there are none. -/
def SceneGraph.evaluate_scene (g : SceneGraph) (time : ℚ) : SdfNode :=
  match g.visibleNodes time with
  | [] => SdfNode.sphere 1
  | [n] => n
  | n :: rest => rest.foldl SdfNode.union n

/-! ## NPR shading configuration (`npr.rs`) -/

/-- An RGBA color (`[f32; 4]`). -/
structure Rgba where
  r : ℚ
  g : ℚ
  b : ℚ
  a : ℚ
deriving DecidableEq

/-- Cel shading configuration (`CelShading`). -/
structure CelShading where
  shadow_steps : Nat
  shadow_color : Rgba
  highlight_color : Rgba
  thresholds : List ℚ
deriving DecidableEq

def CelShading.default : CelShading :=
  { shadow_steps := 2, shadow_color := ⟨1/5, 3/20, 1/4, 1⟩,
    highlight_color := ⟨1, 1, 1, 1⟩, thresholds := [1/2] }

/-- SDF-based outline configuration (`OutlineConfig`). -/
structure OutlineConfig where
  width : ℚ
  color : Rgba
  epsilon : ℚ
  depth_fade : ℚ
deriving DecidableEq

def OutlineConfig.default : OutlineConfig :=
  { width := 1/50, color := ⟨0, 0, 0, 1⟩, epsilon := 1/200, depth_fade := 0 }

/-- Combined anime shading configuration (`AnimeShading`). -/
structure AnimeShading where
  cel_shading : CelShading
  outline : OutlineConfig
  ao_strength : ℚ
  rim_light : ℚ
deriving DecidableEq

def AnimeShading.default : AnimeShading :=
  { cel_shading := CelShading.default, outline := OutlineConfig.default,
    ao_strength := 3/10, rim_light := 1/5 }

/-! ## Director (`director.rs`) -/

/-- A single cut (`Cut`); `CutId` and `ActorId` are modelled as `Nat`. -/
structure Cut where
  name : String
  start_time : ℚ
  end_time : ℚ
  camera : CameraTrack
  active_actors : List Nat
  rcp_duration : ℚ
deriving DecidableEq

/-- `Cut::new`. -/
def Cut.new (name : String) (start e : ℚ) : Cut :=
  { name := name, start_time := start, end_time := e,
    camera := CameraTrack.default, active_actors := [],
    rcp_duration := if e - start > 0 then 1 / (e - start) else 0 }

/-- `Cut::contains_time`: half-open membership `start ≤ time < end`. -/
def Cut.contains_time (c : Cut) (time : ℚ) : Bool :=
  decide (c.start_time ≤ time) && decide (time < c.end_time)

def Cut.with_camera (c : Cut) (camera : CameraTrack) : Cut := { c with camera := camera }

def Cut.with_actors (c : Cut) (actors : List Nat) : Cut := { c with active_actors := actors }

/-- A named group of cut ids (`Scene`). -/
structure Scene where
  name : String
  cuts : List Nat
deriving DecidableEq

/-- The top-level container of scenes (`Episode`). -/
structure Episode where
  name : String
  scenes : List Scene
deriving DecidableEq

def Episode.new (name : String) : Episode := { name := name, scenes := [] }

/-- Director: cuts kept sorted by `start_time` (`Director`). -/
structure Director where
  episode : Episode
  sorted_cuts : List (Nat × Cut)
  next_id : Nat
deriving DecidableEq

def Director.new (episode_name : String) : Director :=
  { episode := Episode.new episode_name, sorted_cuts := [], next_id := 0 }

/-- The loop of Rust's `slice::binary_search_by` over index comparators:
`.lt` moves the left bound past the midpoint, `.gt` moves the right bound to
the midpoint, `.eq` returns the midpoint; `error` carries the insertion
point. -/
def bsGo (f : Nat → Ordering) : Nat → Nat → Nat → Except Nat Nat
  | 0, left, _ => .error left
  | fuel + 1, left, right =>
    if left < right then
      match f (left + (right - left) / 2) with
      | .lt => bsGo f fuel (left + (right - left) / 2 + 1) right
      | .eq => .ok (left + (right - left) / 2)
      | .gt => bsGo f fuel left (left + (right - left) / 2)
    else .error left

def binarySearchLoop (f : Nat → Ordering) (left right : Nat) : Except Nat Nat :=
  bsGo f (right - left) left right

/-- Rust's `slice::binary_search_by` on a list. -/
def binary_search_by (xs : List α) (dflt : α) (f : α → Ordering) : Except Nat Nat :=
  binarySearchLoop (fun i => f (xs.getD i dflt)) 0 xs.length

/-- `Result::unwrap_or_else(|pos| pos)` on a search result. -/
def searchPos : Except Nat Nat → Nat
  | .ok i => i
  | .error i => i

/-- The default value handed to out-of-range index reads (never actually
read by a search staying in bounds). -/
def dummyEntry : Nat × Cut := (0, Cut.new "" 0 0)

/-- `Director::add_cut`: ordered insert at the binary-search position for the
cut's `start_time` (the comparator is `partial_cmp` — `Less`/`Equal`/`Greater`
by the order on the times). -/
def Director.add_cut (d : Director) (cut : Cut) : Director :=
  let id := d.next_id
  let pos := searchPos (binary_search_by d.sorted_cuts dummyEntry
    (fun pc =>
      if pc.2.start_time < cut.start_time then Ordering.lt
      else if pc.2.start_time = cut.start_time then Ordering.eq
      else Ordering.gt))
  { d with sorted_cuts := d.sorted_cuts.insertIdx pos (id, cut), next_id := id + 1 }

/-- `Director::find_active_cut`: binary search for the last cut whose
`start_time ≤ time`, test that candidate, then test index 0 as an edge
case. -/
def Director.find_active_cut (d : Director) (time : ℚ) : Option (Nat × Cut) :=
  let idx := searchPos (binary_search_by d.sorted_cuts dummyEntry
    (fun pc => if pc.2.start_time ≤ time then Ordering.lt else Ordering.gt))
  let primary : Option (Nat × Cut) :=
    if idx > 0 then
      let pc := d.sorted_cuts.getD (idx - 1) dummyEntry
      if pc.2.contains_time time then some pc else none
    else none
  match primary with
  | some pc => some pc
  | none =>
    match d.sorted_cuts with
    | [] => none
    | pc0 :: _ => if pc0.2.contains_time time then some pc0 else none

/-- `Director::duration`: fold of `f32::max` over the cuts' end times,
starting from 0. -/
def Director.duration (d : Director) : ℚ :=
  (d.sorted_cuts.map (fun pc => pc.2.end_time)).foldl max 0

/-- `Director::cut_count`. -/
def Director.cut_count (d : Director) : Nat := d.sorted_cuts.length

/-! ## Episode container (`episode.rs`) -/

/-- Episode metadata (`EpisodeMetadata`). -/
structure EpisodeMetadata where
  title : String
  episode_number : Nat
  duration_seconds : ℚ
  resolution : Nat × Nat
deriving DecidableEq

/-- `EpisodeMetadata::new` (resolution defaults to 1920×1080). -/
def EpisodeMetadata.new (title : String) (episode_number : Nat) (duration : ℚ) :
    EpisodeMetadata :=
  { title := title, episode_number := episode_number, duration_seconds := duration,
    resolution := (1920, 1080) }

/-- Complete episode package (`EpisodePackage`). -/
structure EpisodePackage where
  metadata : EpisodeMetadata
  scene_graph : SceneGraph
  director : Director
  shading : AnimeShading
deriving DecidableEq

/-! ## Body codec (external collaborator `bincode`)

Modelled from the spec: the body is "an opaque encoded body
(metadata + scene graph + director + shading, self-describing)" produced by
the external `bincode` collaborator.  It is modelled as an executable,
prefix-free byte encoding (every emitted byte is `< 256`). -/

/-- Structural worker for `encNat`: the fuel dominates the number of marker
steps, and `encNat` passes the number itself, which always suffices. -/
def encNatGo : Nat → Nat → List Nat
  | 0, n => [n % 255]
  | fuel + 1, n => if n < 255 then [n] else 255 :: encNatGo fuel (n - 255)

/-- Prefix-free byte encoding of a natural number: values below 255 are one
byte; larger values emit a 255 marker and continue on the remainder. -/
def encNat (n : Nat) : List Nat := encNatGo n n

/-- Decoder for `encNat`; returns the value and the remaining bytes. -/
def decNat : List Nat → Option (Nat × List Nat)
  | [] => none
  | b :: rest =>
    if b < 255 then some (b, rest)
    else (decNat rest).map (fun p => (p.1 + 255, p.2))

def encInt : ℤ → List Nat
  | .ofNat n => 0 :: encNat n
  | .negSucc n => 1 :: encNat n

def decInt : List Nat → Option (ℤ × List Nat)
  | [] => none
  | b :: rest =>
    if b = 0 then (decNat rest).map (fun p => (Int.ofNat p.1, p.2))
    else if b = 1 then (decNat rest).map (fun p => (Int.negSucc p.1, p.2))
    else none

def encRat (q : ℚ) : List Nat := encInt q.num ++ encNat q.den

def decRat (l : List Nat) : Option (ℚ × List Nat) :=
  (decInt l).bind (fun p =>
    (decNat p.2).map (fun p' => ((p.1 : ℚ) / (p'.1 : ℚ), p'.2)))

def encBool (b : Bool) : List Nat := [cond b 1 0]

def decBool : List Nat → Option (Bool × List Nat)
  | [] => none
  | b :: rest => if b = 0 then some (false, rest) else if b = 1 then some (true, rest) else none

def encChar (c : Char) : List Nat := encNat c.toNat

def decChar (l : List Nat) : Option (Char × List Nat) :=
  (decNat l).map (fun p => (Char.ofNat p.1, p.2))

def encListWith (enc : α → List Nat) : List α → List Nat
  | [] => []
  | x :: xs => enc x ++ encListWith enc xs

def encList (enc : α → List Nat) (xs : List α) : List Nat :=
  encNat xs.length ++ encListWith enc xs

def decListWith (dec : List Nat → Option (α × List Nat)) :
    Nat → List Nat → Option (List α × List Nat)
  | 0, l => some ([], l)
  | n + 1, l =>
    (dec l).bind (fun p => (decListWith dec n p.2).map (fun p' => (p.1 :: p'.1, p'.2)))

def decList (dec : List Nat → Option (α × List Nat)) (l : List Nat) :
    Option (List α × List Nat) :=
  (decNat l).bind (fun p => decListWith dec p.1 p.2)

def encOption (enc : α → List Nat) : Option α → List Nat
  | none => [0]
  | some x => 1 :: enc x

def decOption (dec : List Nat → Option (α × List Nat)) :
    List Nat → Option (Option α × List Nat)
  | [] => none
  | b :: rest =>
    if b = 0 then some (none, rest)
    else if b = 1 then (dec rest).map (fun p => (some p.1, p.2))
    else none

def encString (s : String) : List Nat := encList encChar s.data

def decString (l : List Nat) : Option (String × List Nat) :=
  (decList decChar l).map (fun p => (String.mk p.1, p.2))

def encKeyframe (k : Keyframe) : List Nat := encRat k.time ++ encRat k.value

def decKeyframe (l : List Nat) : Option (Keyframe × List Nat) :=
  (decRat l).bind (fun p => (decRat p.2).map (fun p' => (⟨p.1, p'.1⟩, p'.2)))

def encTrack (tr : Track) : List Nat := encString tr.name ++ encList encKeyframe tr.keyframes

def decTrack (l : List Nat) : Option (Track × List Nat) :=
  (decString l).bind (fun p =>
    (decList decKeyframe p.2).map (fun p' => (⟨p.1, p'.1⟩, p'.2)))

def encTimeline (tl : Timeline) : List Nat := encString tl.name ++ encList encTrack tl.tracks

def decTimeline (l : List Nat) : Option (Timeline × List Nat) :=
  (decString l).bind (fun p =>
    (decList decTrack p.2).map (fun p' => (⟨p.1, p'.1⟩, p'.2)))

def encSdf : SdfNode → List Nat
  | .sphere r => 0 :: encRat r
  | .box3d hx hy hz => 1 :: (encRat hx ++ encRat hy ++ encRat hz)
  | .union a b => 2 :: (encSdf a ++ encSdf b)
  | .animatedAt base tl t => 3 :: (encSdf base ++ encTimeline tl ++ encRat t)

/-- Fueled decoder for shape trees; the fuel only needs to dominate the
encoded size, and callers pass the length of the remaining input. -/
def decSdf : Nat → List Nat → Option (SdfNode × List Nat)
  | 0, _ => none
  | _ + 1, [] => none
  | fuel + 1, b :: rest =>
    if b = 0 then (decRat rest).map (fun p => (SdfNode.sphere p.1, p.2))
    else if b = 1 then
      (decRat rest).bind (fun p => (decRat p.2).bind (fun p' =>
        (decRat p'.2).map (fun p'' => (SdfNode.box3d p.1 p'.1 p''.1, p''.2))))
    else if b = 2 then
      (decSdf fuel rest).bind (fun p =>
        (decSdf fuel p.2).map (fun p' => (SdfNode.union p.1 p'.1, p'.2)))
    else if b = 3 then
      (decSdf fuel rest).bind (fun p =>
        (decTimeline p.2).bind (fun p' =>
          (decRat p'.2).map (fun p'' => (SdfNode.animatedAt p.1 p'.1 p''.1, p''.2))))
    else none

def encVec3 (v : Vec3) : List Nat := encRat v.x ++ encRat v.y ++ encRat v.z

def decVec3 (l : List Nat) : Option (Vec3 × List Nat) :=
  (decRat l).bind (fun p => (decRat p.2).bind (fun p' =>
    (decRat p'.2).map (fun p'' => (⟨p.1, p'.1, p''.1⟩, p''.2))))

def encQuat (q : Quat) : List Nat := encRat q.x ++ encRat q.y ++ encRat q.z ++ encRat q.w

def decQuat (l : List Nat) : Option (Quat × List Nat) :=
  (decRat l).bind (fun p => (decRat p.2).bind (fun p' =>
    (decRat p'.2).bind (fun p'' =>
      (decRat p''.2).map (fun p3 => (⟨p.1, p'.1, p''.1, p3.1⟩, p3.2)))))

def encTransform (t : ActorTransform) : List Nat :=
  encVec3 t.position ++ encQuat t.rotation ++ encVec3 t.scale

def decTransform (l : List Nat) : Option (ActorTransform × List Nat) :=
  (decVec3 l).bind (fun p => (decQuat p.2).bind (fun p' =>
    (decVec3 p'.2).map (fun p'' => (⟨p.1, p'.1, p''.1⟩, p''.2))))

def encActor (a : Actor) : List Nat :=
  encString a.name ++ encSdf a.base_sdf ++ encOption encTimeline a.timeline ++
    encTransform a.local_transform ++ encOption encNat a.parent ++ encBool a.visible

def decActor (l : List Nat) : Option (Actor × List Nat) :=
  (decString l).bind (fun p1 =>
    (decSdf p1.2.length p1.2).bind (fun p2 =>
      (decOption decTimeline p2.2).bind (fun p3 =>
        (decTransform p3.2).bind (fun p4 =>
          (decOption decNat p4.2).bind (fun p5 =>
            (decBool p5.2).map (fun p6 =>
              (⟨p1.1, p2.1, p3.1, p4.1, p5.1, p6.1⟩, p6.2)))))))

def encSceneGraph (g : SceneGraph) : List Nat :=
  encList (encOption encActor) g.actors ++ encNat g.next_id ++ encList encNat g.root_actors

def decSceneGraph (l : List Nat) : Option (SceneGraph × List Nat) :=
  (decList (decOption decActor) l).bind (fun p1 =>
    (decNat p1.2).bind (fun p2 =>
      (decList decNat p2.2).map (fun p3 => (⟨p1.1, p2.1, p3.1⟩, p3.2))))

def encCameraTrack (c : CameraTrack) : List Nat :=
  encTimeline c.position_timeline ++ encTimeline c.target_timeline ++ encTrack c.fov_track ++
    encRat c.shake_amplitude ++ encRat c.shake_frequency

def decCameraTrack (l : List Nat) : Option (CameraTrack × List Nat) :=
  (decTimeline l).bind (fun p1 =>
    (decTimeline p1.2).bind (fun p2 =>
      (decTrack p2.2).bind (fun p3 =>
        (decRat p3.2).bind (fun p4 =>
          (decRat p4.2).map (fun p5 => (⟨p1.1, p2.1, p3.1, p4.1, p5.1⟩, p5.2))))))

def encCut (c : Cut) : List Nat :=
  encString c.name ++ encRat c.start_time ++ encRat c.end_time ++ encCameraTrack c.camera ++
    encList encNat c.active_actors ++ encRat c.rcp_duration

def decCut (l : List Nat) : Option (Cut × List Nat) :=
  (decString l).bind (fun p1 =>
    (decRat p1.2).bind (fun p2 =>
      (decRat p2.2).bind (fun p3 =>
        (decCameraTrack p3.2).bind (fun p4 =>
          (decList decNat p4.2).bind (fun p5 =>
            (decRat p5.2).map (fun p6 =>
              (⟨p1.1, p2.1, p3.1, p4.1, p5.1, p6.1⟩, p6.2)))))))

def encScene (s : Scene) : List Nat := encString s.name ++ encList encNat s.cuts

def decScene (l : List Nat) : Option (Scene × List Nat) :=
  (decString l).bind (fun p1 =>
    (decList decNat p1.2).map (fun p2 => (⟨p1.1, p2.1⟩, p2.2)))

def encEpisode (e : Episode) : List Nat := encString e.name ++ encList encScene e.scenes

def decEpisode (l : List Nat) : Option (Episode × List Nat) :=
  (decString l).bind (fun p1 =>
    (decList decScene p1.2).map (fun p2 => (⟨p1.1, p2.1⟩, p2.2)))

def encIdCut (pc : Nat × Cut) : List Nat := encNat pc.1 ++ encCut pc.2

def decIdCut (l : List Nat) : Option ((Nat × Cut) × List Nat) :=
  (decNat l).bind (fun p1 => (decCut p1.2).map (fun p2 => ((p1.1, p2.1), p2.2)))

def encDirector (d : Director) : List Nat :=
  encEpisode d.episode ++ encList encIdCut d.sorted_cuts ++ encNat d.next_id

def decDirector (l : List Nat) : Option (Director × List Nat) :=
  (decEpisode l).bind (fun p1 =>
    (decList decIdCut p1.2).bind (fun p2 =>
      (decNat p2.2).map (fun p3 => (⟨p1.1, p2.1, p3.1⟩, p3.2))))

def encRgba (c : Rgba) : List Nat := encRat c.r ++ encRat c.g ++ encRat c.b ++ encRat c.a

def decRgba (l : List Nat) : Option (Rgba × List Nat) :=
  (decRat l).bind (fun p1 => (decRat p1.2).bind (fun p2 =>
    (decRat p2.2).bind (fun p3 =>
      (decRat p3.2).map (fun p4 => (⟨p1.1, p2.1, p3.1, p4.1⟩, p4.2)))))

def encCel (c : CelShading) : List Nat :=
  encNat c.shadow_steps ++ encRgba c.shadow_color ++ encRgba c.highlight_color ++
    encList encRat c.thresholds

def decCel (l : List Nat) : Option (CelShading × List Nat) :=
  (decNat l).bind (fun p1 => (decRgba p1.2).bind (fun p2 =>
    (decRgba p2.2).bind (fun p3 =>
      (decList decRat p3.2).map (fun p4 => (⟨p1.1, p2.1, p3.1, p4.1⟩, p4.2)))))

def encOutline (c : OutlineConfig) : List Nat :=
  encRat c.width ++ encRgba c.color ++ encRat c.epsilon ++ encRat c.depth_fade

def decOutline (l : List Nat) : Option (OutlineConfig × List Nat) :=
  (decRat l).bind (fun p1 => (decRgba p1.2).bind (fun p2 =>
    (decRat p2.2).bind (fun p3 =>
      (decRat p3.2).map (fun p4 => (⟨p1.1, p2.1, p3.1, p4.1⟩, p4.2)))))

def encShading (s : AnimeShading) : List Nat :=
  encCel s.cel_shading ++ encOutline s.outline ++ encRat s.ao_strength ++ encRat s.rim_light

def decShading (l : List Nat) : Option (AnimeShading × List Nat) :=
  (decCel l).bind (fun p1 => (decOutline p1.2).bind (fun p2 =>
    (decRat p2.2).bind (fun p3 =>
      (decRat p3.2).map (fun p4 => (⟨p1.1, p2.1, p3.1, p4.1⟩, p4.2)))))

def encMetadata (m : EpisodeMetadata) : List Nat :=
  encString m.title ++ encNat m.episode_number ++ encRat m.duration_seconds ++
    encNat m.resolution.1 ++ encNat m.resolution.2

def decMetadata (l : List Nat) : Option (EpisodeMetadata × List Nat) :=
  (decString l).bind (fun p1 => (decNat p1.2).bind (fun p2 =>
    (decRat p2.2).bind (fun p3 =>
      (decNat p3.2).bind (fun p4 =>
        (decNat p4.2).map (fun p5 => (⟨p1.1, p2.1, p3.1, (p4.1, p5.1)⟩, p5.2))))))

/-- Modelled from the spec: the external `bincode` body encoding of a full
package — metadata, scene graph, director and shading, in order. -/
def encodeBody (p : EpisodePackage) : List Nat :=
  encMetadata p.metadata ++ encSceneGraph p.scene_graph ++ encDirector p.director ++
    encShading p.shading

/-- Modelled from the spec: the external `bincode` body decoding of a full
package. -/
def decodeBody (l : List Nat) : Option (EpisodePackage × List Nat) :=
  (decMetadata l).bind (fun p1 =>
    (decSceneGraph p1.2).bind (fun p2 =>
      (decDirector p2.2).bind (fun p3 =>
        (decShading p3.2).map (fun p4 => (⟨p1.1, p2.1, p3.1, p4.1⟩, p4.2)))))

/-! ## CRC-32 (external collaborator `crc32fast`) -/

/-- The CRC-32 (IEEE) polynomial, bit-reversed. -/
def CRC_POLY : Nat := 0xEDB88320

/-- One bit step of CRC-32: shift right, conditionally folding in the
polynomial. -/
def crcBit (c : Nat) : Nat := if c % 2 = 1 then (c / 2) ^^^ CRC_POLY else c / 2

/-- Modelled from the spec: one byte step of `crc32fast` (the byte is a `u8`,
hence reduced mod 256). -/
def crcByte (c b : Nat) : Nat :=
  crcBit (crcBit (crcBit (crcBit (crcBit (crcBit (crcBit (crcBit (c ^^^ b % 256))))))))

/-- Modelled from the spec: `crc32fast::hash` over a byte buffer. -/
def crc32 (data : List Nat) : Nat := (data.foldl crcByte 0xFFFFFFFF) ^^^ 0xFFFFFFFF

/-! ## Binary framing (`serialize_episode` / `deserialize_episode`) -/

/-- Little-endian bytes of a `u16`. -/
def le2 (n : Nat) : List Nat := [n % 256, n / 256 % 256]

/-- Little-endian bytes of a `u32`. -/
def le4 (n : Nat) : List Nat :=
  [n % 256, n / 256 % 256, n / 65536 % 256, n / 16777216 % 256]

/-- The magic bytes `b"ANIM"`. -/
def EPISODE_MAGIC : List Nat := [65, 78, 73, 77]

/-- The format version. -/
def EPISODE_VERSION : Nat := 1

/-- `serialize_episode`: body first (for size and CRC), then the 16-byte
header `[magic 4][version 2][flags 2][size 4][crc 4]`, then the body; the
size field is the body length as a `u32`. -/
def serialize_episode (p : EpisodePackage) : List Nat :=
  let body := encodeBody p
  let crc := crc32 body
  let size := body.length % 2 ^ 32
  EPISODE_MAGIC ++ le2 EPISODE_VERSION ++ le2 0 ++ le4 size ++ le4 crc ++ body

/-- Decode failures surfaced by `deserialize_episode` (all `InvalidData` or
I/O errors in the source, distinguished here by their reason). -/
inductive DecodeError where
  | truncatedHeader
  | badMagic
  | unsupportedVersion (version : Nat)
  | truncatedBody
  | crcMismatch (expected actual : Nat)
  | bodyDecode
deriving DecidableEq

/-- `deserialize_episode`: read exactly 16 header bytes (an error when fewer
are available), validate magic, then version, read the body, validate the
CRC, and only then decode the body. -/
def deserialize_episode (input : List Nat) : Except DecodeError EpisodePackage :=
  match input with
  | m0 :: m1 :: m2 :: m3 :: v0 :: v1 :: _f0 :: _f1 ::
      s0 :: s1 :: s2 :: s3 :: c0 :: c1 :: c2 :: c3 :: rest =>
    if [m0, m1, m2, m3] ≠ EPISODE_MAGIC then .error .badMagic
    else
      let version := v0 + 256 * v1
      if version ≠ EPISODE_VERSION then .error (.unsupportedVersion version)
      else
        let size := s0 + 256 * s1 + 65536 * s2 + 16777216 * s3
        let expected_crc := c0 + 256 * c1 + 65536 * c2 + 16777216 * c3
        if rest.length < size then .error .truncatedBody
        else
          let body := rest.take size
          let actual_crc := crc32 body
          if actual_crc ≠ expected_crc then .error (.crcMismatch expected_crc actual_crc)
          else
            match decodeBody body with
            | some pr => .ok pr.1
            | none => .error .bodyDecode
  | _ => .error .truncatedHeader

/-! ## Codec round-trip lemmas -/

theorem decNat_encGo (fuel : Nat) : ∀ (n : Nat), n ≤ 255 * fuel + 254 →
    ∀ rest, decNat (encNatGo fuel n ++ rest) = some (n, rest) := by
  induction fuel with
  | zero =>
    intro n hn rest
    have h : n % 255 = n := Nat.mod_eq_of_lt (by omega)
    simp [encNatGo, decNat, h, (by omega : n < 255)]
  | succ f ih =>
    intro n hn rest
    by_cases h : n < 255
    · simp [encNatGo, h, decNat]
    · have h2 := ih (n - 255) (by omega) rest
      have h3 : n - 255 + 255 = n := by omega
      simp only [encNatGo, if_neg h, List.cons_append, decNat,
        if_neg (by omega : ¬(255:Nat) < 255), h2, Option.map_some', h3]

theorem decNat_enc (n : Nat) (rest : List Nat) :
    decNat (encNat n ++ rest) = some (n, rest) :=
  decNat_encGo n n (by omega) rest

theorem decInt_enc (z : ℤ) (rest : List Nat) :
    decInt (encInt z ++ rest) = some (z, rest) := by
  cases z with
  | ofNat n => simp [encInt, decInt, decNat_enc]
  | negSucc n => simp [encInt, decInt, decNat_enc]

theorem decRat_enc (q : ℚ) (rest : List Nat) :
    decRat (encRat q ++ rest) = some (q, rest) := by
  have h1 := decInt_enc q.num (encNat q.den ++ rest)
  simp [decRat, encRat, List.append_assoc, h1, decNat_enc, Rat.num_div_den]

theorem decBool_enc (b : Bool) (rest : List Nat) :
    decBool (encBool b ++ rest) = some (b, rest) := by
  cases b <;> simp [encBool, decBool]

theorem decChar_enc (c : Char) (rest : List Nat) :
    decChar (encChar c ++ rest) = some (c, rest) := by
  simp [decChar, encChar, decNat_enc]

theorem decListWith_enc (dec : List Nat → Option (α × List Nat)) (enc : α → List Nat)
    (h : ∀ x rest, dec (enc x ++ rest) = some (x, rest)) (xs : List α) (rest : List Nat) :
    decListWith dec xs.length (encListWith enc xs ++ rest) = some (xs, rest) := by
  induction xs with
  | nil => simp [encListWith, decListWith]
  | cons x xs ih =>
    simp [encListWith, decListWith, List.append_assoc, h, ih]

theorem decList_enc (dec : List Nat → Option (α × List Nat)) (enc : α → List Nat)
    (h : ∀ x rest, dec (enc x ++ rest) = some (x, rest)) (xs : List α) (rest : List Nat) :
    decList dec (encList enc xs ++ rest) = some (xs, rest) := by
  simp [decList, encList, List.append_assoc, decNat_enc, decListWith_enc dec enc h]

theorem decOption_enc (dec : List Nat → Option (α × List Nat)) (enc : α → List Nat)
    (h : ∀ x rest, dec (enc x ++ rest) = some (x, rest)) (o : Option α) (rest : List Nat) :
    decOption dec (encOption enc o ++ rest) = some (o, rest) := by
  cases o with
  | none => simp [encOption, decOption]
  | some x => simp [encOption, decOption, h]

theorem decString_enc (s : String) (rest : List Nat) :
    decString (encString s ++ rest) = some (s, rest) := by
  simp [decString, encString, decList_enc decChar encChar decChar_enc]

theorem decKeyframe_enc (k : Keyframe) (rest : List Nat) :
    decKeyframe (encKeyframe k ++ rest) = some (k, rest) := by
  simp [decKeyframe, encKeyframe, List.append_assoc, decRat_enc]

theorem decTrack_enc (tr : Track) (rest : List Nat) :
    decTrack (encTrack tr ++ rest) = some (tr, rest) := by
  simp [decTrack, encTrack, List.append_assoc, decString_enc,
    decList_enc decKeyframe encKeyframe decKeyframe_enc]

theorem decTimeline_enc (tl : Timeline) (rest : List Nat) :
    decTimeline (encTimeline tl ++ rest) = some (tl, rest) := by
  simp [decTimeline, encTimeline, List.append_assoc, decString_enc,
    decList_enc decTrack encTrack decTrack_enc]

theorem decSdf_enc (s : SdfNode) :
    ∀ (fuel : Nat) (rest : List Nat), (encSdf s).length ≤ fuel →
      decSdf fuel (encSdf s ++ rest) = some (s, rest) := by
  induction s with
  | sphere r =>
    intro fuel rest hf
    match fuel with
    | f + 1 => simp [encSdf, decSdf, decRat_enc]
  | box3d hx hy hz =>
    intro fuel rest hf
    match fuel with
    | f + 1 => simp [encSdf, decSdf, List.append_assoc, decRat_enc]
  | union a b iha ihb =>
    intro fuel rest hf
    match fuel with
    | f + 1 =>
      simp only [encSdf, List.length_cons, List.length_append] at hf
      have ha := iha f (encSdf b ++ rest) (by omega)
      have hb := ihb f rest (by omega)
      simp [encSdf, decSdf, List.append_assoc, ha, hb]
  | animatedAt base tl t ih =>
    intro fuel rest hf
    match fuel with
    | f + 1 =>
      simp only [encSdf, List.length_cons, List.length_append] at hf
      have hbase := ih f (encTimeline tl ++ (encRat t ++ rest)) (by omega)
      simp [encSdf, decSdf, List.append_assoc, hbase, decTimeline_enc, decRat_enc]

theorem decVec3_enc (v : Vec3) (rest : List Nat) :
    decVec3 (encVec3 v ++ rest) = some (v, rest) := by
  simp [decVec3, encVec3, List.append_assoc, decRat_enc]

theorem decQuat_enc (q : Quat) (rest : List Nat) :
    decQuat (encQuat q ++ rest) = some (q, rest) := by
  simp [decQuat, encQuat, List.append_assoc, decRat_enc]

theorem decTransform_enc (t : ActorTransform) (rest : List Nat) :
    decTransform (encTransform t ++ rest) = some (t, rest) := by
  simp [decTransform, encTransform, List.append_assoc, decVec3_enc, decQuat_enc]

theorem decActor_enc (a : Actor) (rest : List Nat) :
    decActor (encActor a ++ rest) = some (a, rest) := by
  simp only [decActor, encActor, List.append_assoc]
  rw [decString_enc, Option.some_bind, decSdf_enc a.base_sdf _ _ (by simp),
    Option.some_bind, decOption_enc decTimeline encTimeline decTimeline_enc,
    Option.some_bind, decTransform_enc, Option.some_bind,
    decOption_enc decNat encNat decNat_enc, Option.some_bind, decBool_enc]
  rfl

theorem decSceneGraph_enc (g : SceneGraph) (rest : List Nat) :
    decSceneGraph (encSceneGraph g ++ rest) = some (g, rest) := by
  simp [decSceneGraph, encSceneGraph, List.append_assoc,
    decList_enc _ _ (decOption_enc decActor encActor decActor_enc),
    decNat_enc, decList_enc decNat encNat decNat_enc]

theorem decCameraTrack_enc (c : CameraTrack) (rest : List Nat) :
    decCameraTrack (encCameraTrack c ++ rest) = some (c, rest) := by
  simp [decCameraTrack, encCameraTrack, List.append_assoc, decTimeline_enc,
    decTrack_enc, decRat_enc]

theorem decCut_enc (c : Cut) (rest : List Nat) :
    decCut (encCut c ++ rest) = some (c, rest) := by
  simp [decCut, encCut, List.append_assoc, decString_enc, decRat_enc,
    decCameraTrack_enc, decList_enc decNat encNat decNat_enc]

theorem decScene_enc (s : Scene) (rest : List Nat) :
    decScene (encScene s ++ rest) = some (s, rest) := by
  simp [decScene, encScene, List.append_assoc, decString_enc,
    decList_enc decNat encNat decNat_enc]

theorem decEpisode_enc (e : Episode) (rest : List Nat) :
    decEpisode (encEpisode e ++ rest) = some (e, rest) := by
  simp [decEpisode, encEpisode, List.append_assoc, decString_enc,
    decList_enc decScene encScene decScene_enc]

theorem decIdCut_enc (pc : Nat × Cut) (rest : List Nat) :
    decIdCut (encIdCut pc ++ rest) = some (pc, rest) := by
  simp [decIdCut, encIdCut, List.append_assoc, decNat_enc, decCut_enc]

theorem decDirector_enc (d : Director) (rest : List Nat) :
    decDirector (encDirector d ++ rest) = some (d, rest) := by
  simp [decDirector, encDirector, List.append_assoc, decEpisode_enc,
    decList_enc decIdCut encIdCut decIdCut_enc, decNat_enc]

theorem decRgba_enc (c : Rgba) (rest : List Nat) :
    decRgba (encRgba c ++ rest) = some (c, rest) := by
  simp [decRgba, encRgba, List.append_assoc, decRat_enc]

theorem decCel_enc (c : CelShading) (rest : List Nat) :
    decCel (encCel c ++ rest) = some (c, rest) := by
  simp [decCel, encCel, List.append_assoc, decNat_enc, decRgba_enc,
    decList_enc decRat encRat decRat_enc]

theorem decOutline_enc (c : OutlineConfig) (rest : List Nat) :
    decOutline (encOutline c ++ rest) = some (c, rest) := by
  simp [decOutline, encOutline, List.append_assoc, decRat_enc, decRgba_enc]

theorem decShading_enc (s : AnimeShading) (rest : List Nat) :
    decShading (encShading s ++ rest) = some (s, rest) := by
  simp [decShading, encShading, List.append_assoc, decCel_enc, decOutline_enc, decRat_enc]

theorem decMetadata_enc (m : EpisodeMetadata) (rest : List Nat) :
    decMetadata (encMetadata m ++ rest) = some (m, rest) := by
  simp [decMetadata, encMetadata, List.append_assoc, decString_enc, decNat_enc, decRat_enc]

/-- The modelled body codec round-trips every package. -/
theorem decodeBody_enc (p : EpisodePackage) :
    decodeBody (encodeBody p) = some (p, []) := by
  have h4 := decShading_enc p.shading ([] : List Nat)
  rw [List.append_nil] at h4
  simp [decodeBody, encodeBody, List.append_assoc, decMetadata_enc,
    decSceneGraph_enc, decDirector_enc, h4]

/-! ## Byte bounds: every encoder output is a genuine byte (< 256) -/

/-- A list of naturals that are all bytes. -/
def bytesLt (l : List Nat) : Prop := ∀ b ∈ l, b < 256

theorem bytesLt_nil : bytesLt [] := by intro b hb; cases hb

theorem bytesLt_append {l₁ l₂ : List Nat} (h₁ : bytesLt l₁) (h₂ : bytesLt l₂) :
    bytesLt (l₁ ++ l₂) := by
  intro b hb
  rcases List.mem_append.1 hb with h | h
  · exact h₁ b h
  · exact h₂ b h

theorem bytesLt_cons {b : Nat} {l : List Nat} (hb : b < 256) (hl : bytesLt l) :
    bytesLt (b :: l) := by
  intro x hx
  rcases List.mem_cons.1 hx with h | h
  · omega
  · exact hl x h

theorem bytesLt_encNatGo (fuel : Nat) : ∀ n, bytesLt (encNatGo fuel n) := by
  induction fuel with
  | zero => intro n; exact bytesLt_cons (by omega) bytesLt_nil
  | succ f ih =>
    intro n
    by_cases h : n < 255
    · simp only [encNatGo, if_pos h]
      exact bytesLt_cons (by omega) bytesLt_nil
    · simp only [encNatGo, if_neg h]
      exact bytesLt_cons (by omega) (ih _)

theorem bytesLt_encNat (n : Nat) : bytesLt (encNat n) := bytesLt_encNatGo n n

theorem bytesLt_encInt (z : ℤ) : bytesLt (encInt z) := by
  cases z with
  | ofNat n => exact bytesLt_cons (by omega) (bytesLt_encNat n)
  | negSucc n => exact bytesLt_cons (by omega) (bytesLt_encNat n)

theorem bytesLt_encRat (q : ℚ) : bytesLt (encRat q) :=
  bytesLt_append (bytesLt_encInt _) (bytesLt_encNat _)

theorem bytesLt_encBool (b : Bool) : bytesLt (encBool b) := by
  cases b <;> exact bytesLt_cons (by decide) bytesLt_nil

theorem bytesLt_encChar (c : Char) : bytesLt (encChar c) := bytesLt_encNat _

theorem bytesLt_encListWith {enc : α → List Nat} (h : ∀ x, bytesLt (enc x)) (xs : List α) :
    bytesLt (encListWith enc xs) := by
  induction xs with
  | nil => exact bytesLt_nil
  | cons x xs ih => exact bytesLt_append (h x) ih

theorem bytesLt_encList {enc : α → List Nat} (h : ∀ x, bytesLt (enc x)) (xs : List α) :
    bytesLt (encList enc xs) :=
  bytesLt_append (bytesLt_encNat _) (bytesLt_encListWith h xs)

theorem bytesLt_encOption {enc : α → List Nat} (h : ∀ x, bytesLt (enc x)) (o : Option α) :
    bytesLt (encOption enc o) := by
  cases o with
  | none => exact bytesLt_cons (by omega) bytesLt_nil
  | some x => exact bytesLt_cons (by omega) (h x)

theorem bytesLt_encString (s : String) : bytesLt (encString s) :=
  bytesLt_encList bytesLt_encChar _

theorem bytesLt_encKeyframe (k : Keyframe) : bytesLt (encKeyframe k) :=
  bytesLt_append (bytesLt_encRat _) (bytesLt_encRat _)

theorem bytesLt_encTrack (tr : Track) : bytesLt (encTrack tr) :=
  bytesLt_append (bytesLt_encString _) (bytesLt_encList bytesLt_encKeyframe _)

theorem bytesLt_encTimeline (tl : Timeline) : bytesLt (encTimeline tl) :=
  bytesLt_append (bytesLt_encString _) (bytesLt_encList bytesLt_encTrack _)

theorem bytesLt_encSdf (s : SdfNode) : bytesLt (encSdf s) := by
  induction s with
  | sphere r => exact bytesLt_cons (by omega) (bytesLt_encRat _)
  | box3d hx hy hz =>
    exact bytesLt_cons (by omega)
      (bytesLt_append (bytesLt_append (bytesLt_encRat _) (bytesLt_encRat _)) (bytesLt_encRat _))
  | union a b iha ihb => exact bytesLt_cons (by omega) (bytesLt_append iha ihb)
  | animatedAt base tl t ih =>
    exact bytesLt_cons (by omega)
      (bytesLt_append (bytesLt_append ih (bytesLt_encTimeline _)) (bytesLt_encRat _))

theorem bytesLt_encVec3 (v : Vec3) : bytesLt (encVec3 v) :=
  bytesLt_append (bytesLt_append (bytesLt_encRat _) (bytesLt_encRat _)) (bytesLt_encRat _)

theorem bytesLt_encQuat (q : Quat) : bytesLt (encQuat q) :=
  bytesLt_append (bytesLt_append (bytesLt_append (bytesLt_encRat _) (bytesLt_encRat _))
    (bytesLt_encRat _)) (bytesLt_encRat _)

theorem bytesLt_encTransform (t : ActorTransform) : bytesLt (encTransform t) :=
  bytesLt_append (bytesLt_append (bytesLt_encVec3 _) (bytesLt_encQuat _)) (bytesLt_encVec3 _)

theorem bytesLt_encActor (a : Actor) : bytesLt (encActor a) :=
  bytesLt_append (bytesLt_append (bytesLt_append (bytesLt_append (bytesLt_append
    (bytesLt_encString _) (bytesLt_encSdf _)) (bytesLt_encOption bytesLt_encTimeline _))
    (bytesLt_encTransform _)) (bytesLt_encOption bytesLt_encNat _)) (bytesLt_encBool _)

theorem bytesLt_encSceneGraph (g : SceneGraph) : bytesLt (encSceneGraph g) :=
  bytesLt_append (bytesLt_append (bytesLt_encList (bytesLt_encOption bytesLt_encActor) _)
    (bytesLt_encNat _)) (bytesLt_encList bytesLt_encNat _)

theorem bytesLt_encCameraTrack (c : CameraTrack) : bytesLt (encCameraTrack c) :=
  bytesLt_append (bytesLt_append (bytesLt_append (bytesLt_append
    (bytesLt_encTimeline _) (bytesLt_encTimeline _)) (bytesLt_encTrack _))
    (bytesLt_encRat _)) (bytesLt_encRat _)

theorem bytesLt_encCut (c : Cut) : bytesLt (encCut c) :=
  bytesLt_append (bytesLt_append (bytesLt_append (bytesLt_append (bytesLt_append
    (bytesLt_encString _) (bytesLt_encRat _)) (bytesLt_encRat _))
    (bytesLt_encCameraTrack _)) (bytesLt_encList bytesLt_encNat _)) (bytesLt_encRat _)

theorem bytesLt_encScene (s : Scene) : bytesLt (encScene s) :=
  bytesLt_append (bytesLt_encString _) (bytesLt_encList bytesLt_encNat _)

theorem bytesLt_encEpisode (e : Episode) : bytesLt (encEpisode e) :=
  bytesLt_append (bytesLt_encString _) (bytesLt_encList bytesLt_encScene _)

theorem bytesLt_encIdCut (pc : Nat × Cut) : bytesLt (encIdCut pc) :=
  bytesLt_append (bytesLt_encNat _) (bytesLt_encCut _)

theorem bytesLt_encDirector (d : Director) : bytesLt (encDirector d) :=
  bytesLt_append (bytesLt_append (bytesLt_encEpisode _)
    (bytesLt_encList bytesLt_encIdCut _)) (bytesLt_encNat _)

theorem bytesLt_encRgba (c : Rgba) : bytesLt (encRgba c) :=
  bytesLt_append (bytesLt_append (bytesLt_append (bytesLt_encRat _) (bytesLt_encRat _))
    (bytesLt_encRat _)) (bytesLt_encRat _)

theorem bytesLt_encCel (c : CelShading) : bytesLt (encCel c) :=
  bytesLt_append (bytesLt_append (bytesLt_append (bytesLt_encNat _) (bytesLt_encRgba _))
    (bytesLt_encRgba _)) (bytesLt_encList bytesLt_encRat _)

theorem bytesLt_encOutline (c : OutlineConfig) : bytesLt (encOutline c) :=
  bytesLt_append (bytesLt_append (bytesLt_append (bytesLt_encRat _) (bytesLt_encRgba _))
    (bytesLt_encRat _)) (bytesLt_encRat _)

theorem bytesLt_encShading (s : AnimeShading) : bytesLt (encShading s) :=
  bytesLt_append (bytesLt_append (bytesLt_append (bytesLt_encCel _) (bytesLt_encOutline _))
    (bytesLt_encRat _)) (bytesLt_encRat _)

theorem bytesLt_encMetadata (m : EpisodeMetadata) : bytesLt (encMetadata m) :=
  bytesLt_append (bytesLt_append (bytesLt_append (bytesLt_append
    (bytesLt_encString _) (bytesLt_encNat _)) (bytesLt_encRat _)) (bytesLt_encNat _))
    (bytesLt_encNat _)

theorem bytesLt_encodeBody (p : EpisodePackage) : bytesLt (encodeBody p) :=
  bytesLt_append (bytesLt_append (bytesLt_append (bytesLt_encMetadata _)
    (bytesLt_encSceneGraph _)) (bytesLt_encDirector _)) (bytesLt_encShading _)

/-! ## CRC-32 detects every single-byte change -/

theorem crcBit_lt {c : Nat} (h : c < 2 ^ 32) : crcBit c < 2 ^ 32 := by
  unfold crcBit
  split
  · exact Nat.xor_lt_two_pow (by omega) (by norm_num [CRC_POLY])
  · omega

theorem crcBit_inj {c c' : Nat} (hc : c < 2 ^ 32) (hc' : c' < 2 ^ 32)
    (h : crcBit c = crcBit c') : c = c' := by
  unfold crcBit at h
  by_cases h1 : c % 2 = 1 <;> by_cases h2 : c' % 2 = 1
  · rw [if_pos h1, if_pos h2] at h
    have := congrArg (fun x => x ^^^ CRC_POLY) h
    simp only [Nat.xor_cancel_right] at this
    omega
  · rw [if_pos h1, if_neg h2] at h
    have hb := congrArg (fun x => x.testBit 31) h
    have hd2 : c / 2 < 2 ^ 31 := by omega
    have hd2' : c' / 2 < 2 ^ 31 := by omega
    simp only [Nat.testBit_xor, Nat.testBit_lt_two_pow hd2,
      Nat.testBit_lt_two_pow hd2'] at hb
    have : CRC_POLY.testBit 31 = true := by decide
    simp [this] at hb
  · rw [if_neg h1, if_pos h2] at h
    have hb := congrArg (fun x => x.testBit 31) h
    have hd2 : c / 2 < 2 ^ 31 := by omega
    have hd2' : c' / 2 < 2 ^ 31 := by omega
    simp only [Nat.testBit_xor, Nat.testBit_lt_two_pow hd2,
      Nat.testBit_lt_two_pow hd2'] at hb
    have : CRC_POLY.testBit 31 = true := by decide
    simp [this] at hb
  · rw [if_neg h1, if_neg h2] at h
    omega

theorem crcByte_lt {c : Nat} (b : Nat) (h : c < 2 ^ 32) : crcByte c b < 2 ^ 32 := by
  have h0 : c ^^^ b % 256 < 2 ^ 32 := Nat.xor_lt_two_pow h (by omega)
  unfold crcByte
  exact crcBit_lt (crcBit_lt (crcBit_lt (crcBit_lt (crcBit_lt (crcBit_lt
    (crcBit_lt (crcBit_lt h0)))))))

theorem crcByte_inj_left {c c' b : Nat} (hc : c < 2 ^ 32) (hc' : c' < 2 ^ 32)
    (h : crcByte c b = crcByte c' b) : c = c' := by
  have h0 : c ^^^ b % 256 < 2 ^ 32 := Nat.xor_lt_two_pow hc (by omega)
  have h0' : c' ^^^ b % 256 < 2 ^ 32 := Nat.xor_lt_two_pow hc' (by omega)
  unfold crcByte at h
  have hx : c ^^^ b % 256 = c' ^^^ b % 256 := by
    have s1 := crcBit_inj (crcBit_lt (crcBit_lt (crcBit_lt (crcBit_lt (crcBit_lt
      (crcBit_lt (crcBit_lt h0))))))) (crcBit_lt (crcBit_lt (crcBit_lt (crcBit_lt
      (crcBit_lt (crcBit_lt (crcBit_lt h0'))))))) h
    have s2 := crcBit_inj (crcBit_lt (crcBit_lt (crcBit_lt (crcBit_lt (crcBit_lt
      (crcBit_lt h0)))))) (crcBit_lt (crcBit_lt (crcBit_lt (crcBit_lt (crcBit_lt
      (crcBit_lt h0')))))) s1
    have s3 := crcBit_inj (crcBit_lt (crcBit_lt (crcBit_lt (crcBit_lt (crcBit_lt
      h0))))) (crcBit_lt (crcBit_lt (crcBit_lt (crcBit_lt (crcBit_lt h0'))))) s2
    have s4 := crcBit_inj (crcBit_lt (crcBit_lt (crcBit_lt (crcBit_lt h0))))
      (crcBit_lt (crcBit_lt (crcBit_lt (crcBit_lt h0')))) s3
    have s5 := crcBit_inj (crcBit_lt (crcBit_lt (crcBit_lt h0)))
      (crcBit_lt (crcBit_lt (crcBit_lt h0'))) s4
    have s6 := crcBit_inj (crcBit_lt (crcBit_lt h0)) (crcBit_lt (crcBit_lt h0')) s5
    have s7 := crcBit_inj (crcBit_lt h0) (crcBit_lt h0') s6
    exact crcBit_inj h0 h0' s7
  have := congrArg (fun x => x ^^^ b % 256) hx
  simpa only [Nat.xor_cancel_right] using this

theorem crcByte_inj_right {c b b' : Nat} (hc : c < 2 ^ 32) (hb : b < 256) (hb' : b' < 256)
    (hne : b ≠ b') : crcByte c b ≠ crcByte c b' := by
  intro h
  have h0 : c ^^^ b % 256 < 2 ^ 32 := Nat.xor_lt_two_pow hc (by omega)
  have h0' : c ^^^ b' % 256 < 2 ^ 32 := Nat.xor_lt_two_pow hc (by omega)
  unfold crcByte at h
  have s1 := crcBit_inj (crcBit_lt (crcBit_lt (crcBit_lt (crcBit_lt (crcBit_lt
    (crcBit_lt (crcBit_lt h0))))))) (crcBit_lt (crcBit_lt (crcBit_lt (crcBit_lt
    (crcBit_lt (crcBit_lt (crcBit_lt h0'))))))) h
  have s2 := crcBit_inj (crcBit_lt (crcBit_lt (crcBit_lt (crcBit_lt (crcBit_lt
    (crcBit_lt h0)))))) (crcBit_lt (crcBit_lt (crcBit_lt (crcBit_lt (crcBit_lt
    (crcBit_lt h0')))))) s1
  have s3 := crcBit_inj (crcBit_lt (crcBit_lt (crcBit_lt (crcBit_lt (crcBit_lt
    h0))))) (crcBit_lt (crcBit_lt (crcBit_lt (crcBit_lt (crcBit_lt h0'))))) s2
  have s4 := crcBit_inj (crcBit_lt (crcBit_lt (crcBit_lt (crcBit_lt h0))))
    (crcBit_lt (crcBit_lt (crcBit_lt (crcBit_lt h0')))) s3
  have s5 := crcBit_inj (crcBit_lt (crcBit_lt (crcBit_lt h0)))
    (crcBit_lt (crcBit_lt (crcBit_lt h0'))) s4
  have s6 := crcBit_inj (crcBit_lt (crcBit_lt h0)) (crcBit_lt (crcBit_lt h0')) s5
  have s7 := crcBit_inj (crcBit_lt h0) (crcBit_lt h0') s6
  have hx := crcBit_inj h0 h0' s7
  have := congrArg (fun x => c ^^^ x) hx
  simp only [Nat.xor_cancel_left] at this
  omega

theorem crcFold_lt : ∀ (l : List Nat) {c : Nat}, c < 2 ^ 32 →
    List.foldl crcByte c l < 2 ^ 32 := by
  intro l
  induction l with
  | nil => intro c hc; simpa using hc
  | cons b l ih => intro c hc; exact ih (crcByte_lt b hc)

theorem crcFold_inj : ∀ (l : List Nat) {c c' : Nat}, c < 2 ^ 32 → c' < 2 ^ 32 →
    List.foldl crcByte c l = List.foldl crcByte c' l → c = c' := by
  intro l
  induction l with
  | nil => intro c c' _ _ h; simpa using h
  | cons b l ih =>
    intro c c' hc hc' h
    exact crcByte_inj_left hc hc' (ih (crcByte_lt b hc) (crcByte_lt b hc') h)

/-- Changing a single byte of a buffer always changes its CRC-32. -/
theorem crc32_set_ne (l : List Nat) (i : Nat) (b' : Nat) (hi : i < l.length)
    (horig : l.getD i 0 < 256) (hb' : b' < 256) (hne : b' ≠ l.getD i 0) :
    crc32 (l.set i b') ≠ crc32 l := by
  intro h
  have hsplit : l = l.take i ++ l.getD i 0 :: l.drop (i + 1) := by
    conv_lhs => rw [← List.take_append_drop i l]
    rw [← List.getElem_cons_drop l i hi]
    rw [List.getD_eq_getElem l 0 hi]
  have hset : l.set i b' = l.take i ++ b' :: l.drop (i + 1) := by
    conv_lhs => rw [hsplit]
    rw [List.set_append_right _ _ (by simp [List.length_take])]
    have : i - (l.take i).length = 0 := by simp [List.length_take]; omega
    rw [this]
    rfl
  unfold crc32 at h
  have h2 : List.foldl crcByte 0xFFFFFFFF (l.set i b') =
      List.foldl crcByte 0xFFFFFFFF l := by
    have := congrArg (fun x => x ^^^ 0xFFFFFFFF) h
    simpa only [Nat.xor_cancel_right] using this
  rw [hset] at h2
  conv_rhs at h2 => rw [hsplit]
  rw [List.foldl_append, List.foldl_append] at h2
  simp only [List.foldl_cons] at h2
  have hper : List.foldl crcByte 0xFFFFFFFF (l.take i) < 2 ^ 32 :=
    crcFold_lt _ (by norm_num)
  have hinj := crcFold_inj (l.drop (i + 1)) (crcByte_lt _ hper) (crcByte_lt _ hper) h2
  exact crcByte_inj_right hper hb' horig hne hinj

/-! ## Framing lemmas -/

theorem crc32_lt (l : List Nat) : crc32 l < 2 ^ 32 := by
  unfold crc32
  exact Nat.xor_lt_two_pow (crcFold_lt _ (by norm_num)) (by norm_num)

/-- Deserialization of a well-headed frame reduces to the CRC test followed
by the body decode. -/
theorem deserialize_frame (body : List Nat) (c : Nat) (hlen : body.length < 2 ^ 32)
    (hc : c < 2 ^ 32) :
    deserialize_episode (EPISODE_MAGIC ++ le2 EPISODE_VERSION ++ le2 0 ++
      le4 (body.length % 2 ^ 32) ++ le4 c ++ body) =
      if crc32 body ≠ c then Except.error (.crcMismatch c (crc32 body))
      else
        match decodeBody body with
        | some pr => Except.ok pr.1
        | none => Except.error .bodyDecode := by
  have hsz : body.length % 2 ^ 32 = body.length := Nat.mod_eq_of_lt hlen
  rw [hsz]
  have hszdec : body.length % 256 + 256 * (body.length / 256 % 256) +
      65536 * (body.length / 65536 % 256) +
      16777216 * (body.length / 16777216 % 256) = body.length := by omega
  have hcdec : c % 256 + 256 * (c / 256 % 256) + 65536 * (c / 65536 % 256) +
      16777216 * (c / 16777216 % 256) = c := by omega
  simp only [EPISODE_MAGIC, EPISODE_VERSION, le2, le4, List.cons_append,
    List.nil_append, deserialize_episode]
  rw [if_neg (by decide)]
  norm_num
  rw [hszdec, hcdec]
  rw [if_neg (by omega), List.take_length]

/-- `serialize_episode` in framing form. -/
theorem serialize_eq_frame (p : EpisodePackage) :
    serialize_episode p = EPISODE_MAGIC ++ le2 EPISODE_VERSION ++ le2 0 ++
      le4 ((encodeBody p).length % 2 ^ 32) ++ le4 (crc32 (encodeBody p)) ++ encodeBody p :=
  rfl

/-- A small concrete metadata record used by witnesses. -/
def sampleMetadata : EpisodeMetadata :=
  { title := "A", episode_number := 1, duration_seconds := 8, resolution := (16, 9) }

/-- A small concrete episode package used by witnesses. -/
def samplePackage : EpisodePackage :=
  { metadata := sampleMetadata,
    scene_graph := SceneGraph.new,
    director := Director.new "B",
    shading := AnimeShading.default }

/-- C2: for every constructed `EpisodePackage` P, `deserialize_episode` on the
bytes of `serialize_episode P` succeeds, and the decoded package has the same
metadata (title, episode number, duration, resolution), the same scene-graph
actor count, the same director cut count, and the same director `duration()`
as P.  (The body length must fit the `u32` size field.) -/
theorem roundtrip_preserves_package (p : EpisodePackage)
    (hlen : (encodeBody p).length < 2 ^ 32) :
    ∃ p', deserialize_episode (serialize_episode p) = Except.ok p' ∧
      p'.metadata.title = p.metadata.title ∧
      p'.metadata.episode_number = p.metadata.episode_number ∧
      p'.metadata.duration_seconds = p.metadata.duration_seconds ∧
      p'.metadata.resolution = p.metadata.resolution ∧
      p'.scene_graph.actor_count = p.scene_graph.actor_count ∧
      p'.director.cut_count = p.director.cut_count ∧
      p'.director.duration = p.director.duration := by
  refine ⟨p, ?_, rfl, rfl, rfl, rfl, rfl, rfl, rfl⟩
  rw [serialize_eq_frame, deserialize_frame _ _ hlen (crc32_lt _)]
  simp [decodeBody_enc]

unseal Rat.add Rat.mul Rat.sub Rat.inv in
/-- Witness for C2 at a concrete package. -/
theorem roundtrip_preserves_package_witness :
    ∃ p', deserialize_episode (serialize_episode samplePackage) = Except.ok p' ∧
      p'.metadata.title = samplePackage.metadata.title ∧
      p'.metadata.episode_number = samplePackage.metadata.episode_number ∧
      p'.metadata.duration_seconds = samplePackage.metadata.duration_seconds ∧
      p'.metadata.resolution = samplePackage.metadata.resolution ∧
      p'.scene_graph.actor_count = samplePackage.scene_graph.actor_count ∧
      p'.director.cut_count = samplePackage.director.cut_count ∧
      p'.director.duration = samplePackage.director.duration :=
  roundtrip_preserves_package samplePackage (by decide)

/-- C3: changing any single byte of an encoded artifact's body to a different
byte value makes `deserialize_episode` fail with the CRC-mismatch error — the
rejection happens at the CRC validation stage, before the body decode is ever
consulted, so a corrupted body is never partially deserialized. -/
theorem corrupted_body_rejected (p : EpisodePackage) (i b' : Nat)
    (hlen : (encodeBody p).length < 2 ^ 32)
    (hi : i < (encodeBody p).length) (hb' : b' < 256)
    (hne : b' ≠ (encodeBody p).getD i 0) :
    deserialize_episode ((serialize_episode p).set (16 + i) b') =
      Except.error (DecodeError.crcMismatch (crc32 (encodeBody p))
        (crc32 ((encodeBody p).set i b'))) := by
  have hhdr : (EPISODE_MAGIC ++ le2 EPISODE_VERSION ++ le2 0 ++
      le4 ((encodeBody p).length % 2 ^ 32) ++ le4 (crc32 (encodeBody p))).length = 16 := by
    simp [EPISODE_MAGIC, EPISODE_VERSION, le2, le4]
  have hset : (serialize_episode p).set (16 + i) b' =
      EPISODE_MAGIC ++ le2 EPISODE_VERSION ++ le2 0 ++
        le4 ((encodeBody p).length % 2 ^ 32) ++ le4 (crc32 (encodeBody p)) ++
        (encodeBody p).set i b' := by
    rw [serialize_eq_frame, List.set_append_right _ _ (by rw [hhdr]; omega), hhdr]
    have h16 : 16 + i - 16 = i := by omega
    rw [h16]
  have hlen' : ((encodeBody p).set i b').length = (encodeBody p).length :=
    List.length_set _ _ _
  have horig : (encodeBody p).getD i 0 < 256 := by
    rw [List.getD_eq_getElem _ 0 hi]
    exact bytesLt_encodeBody p _ (List.getElem_mem hi)
  have hcrcne : crc32 ((encodeBody p).set i b') ≠ crc32 (encodeBody p) :=
    crc32_set_ne _ i b' hi horig hb' hne
  rw [hset]
  have hframe := deserialize_frame ((encodeBody p).set i b') (crc32 (encodeBody p))
    (by rw [hlen']; exact hlen) (crc32_lt _)
  rw [hlen'] at hframe
  rw [hframe, if_pos hcrcne]

unseal Rat.add Rat.mul Rat.sub Rat.inv in
/-- Witness for C3: corrupting the first body byte of a concrete artifact. -/
theorem corrupted_body_rejected_witness :
    deserialize_episode ((serialize_episode samplePackage).set (16 + 0) 2) =
      Except.error (DecodeError.crcMismatch (crc32 (encodeBody samplePackage))
        (crc32 ((encodeBody samplePackage).set 0 2))) :=
  corrupted_body_rejected samplePackage 0 2 (by decide) (by decide) (by decide) (by decide)

/-! ## Binary-search correctness and the two-candidate form of
`find_active_cut` -/

/-- On a comparator that answers `lt` strictly below a boundary `b` and `gt`
from `b` on, the search loop returns the insertion point `b`. -/
theorem bsGo_correct (f : Nat → Ordering) (b : Nat) : ∀ (fuel left right : Nat),
    right - left ≤ fuel → left ≤ b → b ≤ right →
    (∀ i, left ≤ i → i < right → (i < b → f i = .lt) ∧ (b ≤ i → f i = .gt)) →
    bsGo f fuel left right = .error b := by
  intro fuel
  induction fuel with
  | zero =>
    intro left right h1 h2 h3 _
    have : left = b := by omega
    simp [bsGo, this]
  | succ fl ih =>
    intro left right h1 h2 h3 h4
    by_cases hlr : left < right
    · have hmge : left ≤ left + (right - left) / 2 := by omega
      have hmlt : left + (right - left) / 2 < right := by omega
      by_cases hmb : left + (right - left) / 2 < b
      · have hstep := (h4 _ hmge hmlt).1 hmb
        simp only [bsGo, if_pos hlr, hstep]
        exact ih _ _ (by omega) (by omega) h3 (fun i hi1 hi2 => h4 i (by omega) hi2)
      · have hstep := (h4 _ hmge hmlt).2 (by omega)
        simp only [bsGo, if_pos hlr, hstep]
        exact ih _ _ (by omega) h2 (by omega) (fun i hi1 hi2 => h4 i hi1 (by omega))
    · have hlb : left = b := by omega
      subst hlb
      simp [bsGo, if_neg hlr]

/-- The number of cuts whose start time is at most `t`. -/
def startLeCount (cuts : List (Nat × Cut)) (t : ℚ) : Nat :=
  cuts.countP (fun pc => decide (pc.2.start_time ≤ t))

/-- The director's storage invariant: cuts sorted by start time. -/
def CutsSorted (cuts : List (Nat × Cut)) : Prop :=
  List.Pairwise (fun a b => a.2.start_time ≤ b.2.start_time) cuts

instance (cuts : List (Nat × Cut)) : Decidable (CutsSorted cuts) := by
  unfold CutsSorted
  infer_instance

/-- In a sorted cut list, the cuts with start time at most `t` are exactly the
first `startLeCount` ones. -/
theorem startLeCount_spec (t : ℚ) : ∀ (cuts : List (Nat × Cut)), CutsSorted cuts →
    ∀ i, i < cuts.length →
      ((i < startLeCount cuts t → (cuts.getD i dummyEntry).2.start_time ≤ t) ∧
       (startLeCount cuts t ≤ i → ¬ (cuts.getD i dummyEntry).2.start_time ≤ t)) := by
  intro cuts
  induction cuts with
  | nil => intro _ i hi; simp at hi
  | cons hd tl ih =>
    intro hs i hi
    have hs' : CutsSorted tl := (List.pairwise_cons.1 hs).2
    have hhd : ∀ x ∈ tl, hd.2.start_time ≤ x.2.start_time := (List.pairwise_cons.1 hs).1
    by_cases hp : hd.2.start_time ≤ t
    · have hc : startLeCount (hd :: tl) t = startLeCount tl t + 1 := by
        simp [startLeCount, List.countP_cons, hp]
      cases i with
      | zero =>
        refine ⟨fun _ => by simpa using hp, fun hb => ?_⟩
        rw [hc] at hb
        omega
      | succ j =>
        have hj : j < tl.length := by simpa using hi
        have := ih hs' j hj
        rw [hc]
        constructor
        · intro hlt
          simpa using this.1 (by omega)
        · intro hge
          simpa using this.2 (by omega)
    · have hc : startLeCount (hd :: tl) t = 0 := by
        have h0 : startLeCount tl t = 0 := by
          rw [startLeCount, List.countP_eq_zero]
          intro x hx
          simp only [decide_eq_true_eq]
          exact fun hle => hp (le_trans (hhd x hx) hle)
        simp [startLeCount, List.countP_cons, hp] at h0 ⊢
        exact h0
      rw [hc]
      refine ⟨fun h => by omega, fun _ => ?_⟩
      cases i with
      | zero => simpa using hp
      | succ j =>
        have hj : j < tl.length := by simpa using hi
        have hmem : tl.getD j dummyEntry ∈ tl := by
          rw [List.getD_eq_getElem _ _ hj]
          exact List.getElem_mem hj
        simp only [List.getD_cons_succ]
        exact fun hle => hp (le_trans (hhd _ hmem) hle)

/-- The specification form of `find_active_cut`: it inspects only the last
sorted cut whose start time is at most `t` and the cut at index 0,
preferring the former. -/
def findActiveCutSpec (d : Director) (t : ℚ) : Option (Nat × Cut) :=
  let cuts := d.sorted_cuts
  let b := startLeCount cuts t
  let primary : Option (Nat × Cut) :=
    if b > 0 then
      let pc := cuts.getD (b - 1) dummyEntry
      if pc.2.contains_time t then some pc else none
    else none
  match primary with
  | some pc => some pc
  | none =>
    match cuts with
    | [] => none
    | pc0 :: _ => if pc0.2.contains_time t then some pc0 else none

/-- On sorted storage, `find_active_cut` coincides with its two-candidate
specification form. -/
theorem findActiveCut_eq_spec (d : Director) (t : ℚ) (hs : CutsSorted d.sorted_cuts) :
    d.find_active_cut t = findActiveCutSpec d t := by
  have hb : startLeCount d.sorted_cuts t ≤ d.sorted_cuts.length :=
    List.countP_le_length _
  have hsearch : binary_search_by d.sorted_cuts dummyEntry
      (fun pc => if pc.2.start_time ≤ t then Ordering.lt else Ordering.gt) =
      Except.error (startLeCount d.sorted_cuts t) := by
    unfold binary_search_by binarySearchLoop
    apply bsGo_correct _ _ _ _ _ (by omega) (by omega) hb
    intro i _ hi2
    have hspec := startLeCount_spec t d.sorted_cuts hs i hi2
    constructor
    · intro hlt
      have h := hspec.1 hlt
      simp only [List.getD, List.get?_eq_getElem?] at h
      simp [h]
    · intro hge
      have h := hspec.2 hge
      simp only [List.getD, List.get?_eq_getElem?] at h
      simp [h]
  unfold Director.find_active_cut findActiveCutSpec
  rw [hsearch]
  rfl

/-! ## Two-cut directors -/

theorem add_cut_empty (nm : String) (c : Cut) :
    ((Director.new nm).add_cut c).sorted_cuts = [(0, c)] := rfl

/-- Adding two cuts to a fresh director stores them sorted by start time
(with the first added cut first on ties). -/
theorem add_two_cuts (nm : String) (c1 c2 : Cut) :
    (((Director.new nm).add_cut c1).add_cut c2).sorted_cuts =
      if c1.start_time < c2.start_time then [(0, c1), (1, c2)]
      else [(1, c2), (0, c1)] := by
  by_cases hlt : c1.start_time < c2.start_time
  · simp [Director.add_cut, Director.new, Episode.new, binary_search_by, binarySearchLoop,
      bsGo, searchPos, hlt, List.insertIdx]
  · by_cases heq : c1.start_time = c2.start_time
    · simp [Director.add_cut, Director.new, Episode.new, binary_search_by, binarySearchLoop,
        bsGo, searchPos, hlt, heq, List.insertIdx]
    · simp [Director.add_cut, Director.new, Episode.new, binary_search_by, binarySearchLoop,
        bsGo, searchPos, hlt, heq, List.insertIdx]

/-- `find_active_cut` on a director holding exactly two disjoint cuts. -/
theorem find_two {a b : Nat × Cut} (d : Director) (hd : d.sorted_cuts = [a, b])
    (hab : a.2.start_time ≤ b.2.start_time)
    (hdisj : ∀ u, ¬(a.2.contains_time u = true ∧ b.2.contains_time u = true)) (t : ℚ) :
    (a.2.contains_time t = true → d.find_active_cut t = some a) ∧
    (b.2.contains_time t = true → d.find_active_cut t = some b) ∧
    (a.2.contains_time t = false → b.2.contains_time t = false →
      d.find_active_cut t = none) := by
  have hs : CutsSorted d.sorted_cuts := by
    rw [hd]
    exact List.pairwise_pair.2 hab
  rw [findActiveCut_eq_spec d t hs]
  unfold findActiveCutSpec
  rw [hd]
  by_cases ha : a.2.start_time ≤ t
  · by_cases hb : b.2.start_time ≤ t
    · have hcount : startLeCount [a, b] t = 2 := by
        simp [startLeCount, List.countP_cons, ha, hb]
      by_cases hbc : b.2.contains_time t = true
      · have hac : a.2.contains_time t = false := by
          by_contra hcon
          simp only [Bool.not_eq_false] at hcon
          exact hdisj t ⟨hcon, hbc⟩
        simp [hcount, hbc, hac]
      · have hbc' : b.2.contains_time t = false := by
          simpa using hbc
        by_cases hac : a.2.contains_time t = true
        · simp [hcount, hbc', hac]
        · have hac' : a.2.contains_time t = false := by
            simpa using hac
          simp [hcount, hbc', hac']
    · have hcount : startLeCount [a, b] t = 1 := by
        simp [startLeCount, List.countP_cons, ha, hb]
      have hbc : b.2.contains_time t = false := by
        simp [Cut.contains_time, hb]
      by_cases hac : a.2.contains_time t = true
      · simp [hcount, hac, hbc]
      · have hac' : a.2.contains_time t = false := by
          simpa using hac
        simp [hcount, hac', hbc]
  · have hb : ¬ b.2.start_time ≤ t := fun hb => ha (le_trans hab hb)
    have hcount : startLeCount [a, b] t = 0 := by
      simp [startLeCount, List.countP_cons, ha, hb]
    have hac : a.2.contains_time t = false := by
      simp [Cut.contains_time, ha]
    have hbc : b.2.contains_time t = false := by
      simp [Cut.contains_time, hb]
    simp [hcount, hac, hbc]

/-- Both insertion orders of two disjoint cuts give the same resolution
behavior (ids: the first added cut gets id 0, the second id 1). -/
theorem two_cut_directors (nm : String) (c1 c2 : Cut)
    (hdisj : ∀ u, ¬(c1.contains_time u = true ∧ c2.contains_time u = true)) (t : ℚ) :
    (c1.contains_time t = true →
      (((Director.new nm).add_cut c1).add_cut c2).find_active_cut t = some (0, c1) ∧
      (((Director.new nm).add_cut c2).add_cut c1).find_active_cut t = some (1, c1)) ∧
    (c2.contains_time t = true →
      (((Director.new nm).add_cut c1).add_cut c2).find_active_cut t = some (1, c2) ∧
      (((Director.new nm).add_cut c2).add_cut c1).find_active_cut t = some (0, c2)) ∧
    (c1.contains_time t = false → c2.contains_time t = false →
      (((Director.new nm).add_cut c1).add_cut c2).find_active_cut t = none ∧
      (((Director.new nm).add_cut c2).add_cut c1).find_active_cut t = none) := by
  have hdisj' : ∀ u, ¬(c2.contains_time u = true ∧ c1.contains_time u = true) := by
    intro u h
    exact hdisj u ⟨h.2, h.1⟩
  have h12 := add_two_cuts nm c1 c2
  have h21 := add_two_cuts nm c2 c1
  by_cases hlt : c1.start_time < c2.start_time
  · rw [if_pos hlt] at h12
    rw [if_neg (by exact not_lt.2 (le_of_lt hlt))] at h21
    have f12 := find_two _ h12 (le_of_lt hlt)
      (by intro u h; exact hdisj u ⟨h.1, h.2⟩) t
    have f21 := find_two _ h21 (le_of_lt hlt)
      (by intro u h; exact hdisj u ⟨h.1, h.2⟩) t
    exact ⟨fun h => ⟨f12.1 h, f21.1 h⟩, fun h => ⟨f12.2.1 h, f21.2.1 h⟩,
      fun h1 h2 => ⟨f12.2.2 h1 h2, f21.2.2 h1 h2⟩⟩
  · rw [if_neg hlt] at h12
    have hle : c2.start_time ≤ c1.start_time := not_lt.1 hlt
    have f12 := find_two _ h12 hle
      (by intro u h; exact hdisj u ⟨h.2, h.1⟩) t
    by_cases hlt' : c2.start_time < c1.start_time
    · rw [if_pos hlt'] at h21
      have f21 := find_two _ h21 hle
        (by intro u h; exact hdisj u ⟨h.2, h.1⟩) t
      exact ⟨fun h => ⟨f12.2.1 h, f21.2.1 h⟩, fun h => ⟨f12.1 h, f21.1 h⟩,
        fun h1 h2 => ⟨f12.2.2 h2 h1, f21.2.2 h2 h1⟩⟩
    · rw [if_neg hlt'] at h21
      have hle' : c1.start_time ≤ c2.start_time := not_lt.1 hlt'
      have f21 := find_two _ h21 hle'
        (by intro u h; exact hdisj u ⟨h.1, h.2⟩) t
      exact ⟨fun h => ⟨f12.2.1 h, f21.1 h⟩, fun h => ⟨f12.1 h, f21.2.1 h⟩,
        fun h1 h2 => ⟨f12.2.2 h2 h1, f21.2.2 h1 h2⟩⟩

/-- C1: for every pair of cuts with disjoint half-open windows added to a
Director in either order, `find_active_cut t` returns the id and cut whose
window contains `t` (the first added cut has id 0, the second id 1), and
`none` for every `t` in neither window — including the cut-less director;
for contiguous cuts sharing a boundary time, exactly the cut starting at the
boundary is active there. -/
theorem disjoint_cuts_find_active (nm : String) (t : ℚ) :
    ((Director.new nm).find_active_cut t = none) ∧
    (∀ c1 c2 : Cut, (∀ u, ¬(c1.contains_time u = true ∧ c2.contains_time u = true)) →
      ((c1.contains_time t = true →
        (((Director.new nm).add_cut c1).add_cut c2).find_active_cut t = some (0, c1) ∧
        (((Director.new nm).add_cut c2).add_cut c1).find_active_cut t = some (1, c1)) ∧
      (c2.contains_time t = true →
        (((Director.new nm).add_cut c1).add_cut c2).find_active_cut t = some (1, c2) ∧
        (((Director.new nm).add_cut c2).add_cut c1).find_active_cut t = some (0, c2)) ∧
      (c1.contains_time t = false → c2.contains_time t = false →
        (((Director.new nm).add_cut c1).add_cut c2).find_active_cut t = none ∧
        (((Director.new nm).add_cut c2).add_cut c1).find_active_cut t = none))) ∧
    (∀ (n1 n2 : String) (s m e : ℚ), m < e →
      (((Director.new nm).add_cut (Cut.new n1 s m)).add_cut
          (Cut.new n2 m e)).find_active_cut m = some (1, Cut.new n2 m e) ∧
      (((Director.new nm).add_cut (Cut.new n2 m e)).add_cut
          (Cut.new n1 s m)).find_active_cut m = some (0, Cut.new n2 m e)) := by
  refine ⟨rfl, fun c1 c2 hdisj => two_cut_directors nm c1 c2 hdisj t, ?_⟩
  intro n1 n2 s m e hme
  have hdisj : ∀ u, ¬((Cut.new n1 s m).contains_time u = true ∧
      (Cut.new n2 m e).contains_time u = true) := by
    intro u h
    have h1 := h.1
    have h2 := h.2
    simp [Cut.new, Cut.contains_time] at h1 h2
    exact absurd h2.1 (not_le.2 h1.2)
  have hc2 : (Cut.new n2 m e).contains_time m = true := by
    simp [Cut.new, Cut.contains_time, hme]
  exact (two_cut_directors nm (Cut.new n1 s m) (Cut.new n2 m e) hdisj m).2.1 hc2

unseal Rat.add Rat.mul Rat.sub Rat.inv in
/-- Witness for C1: the integration scenario `[0,3)`/`[3,8)` at times 1, 3
(the shared boundary), and 10. -/
theorem disjoint_cuts_find_active_witness :
    (((Director.new "E").add_cut (Cut.new "intro" 0 3)).add_cut
        (Cut.new "battle" 3 8)).find_active_cut 1 = some (0, Cut.new "intro" 0 3) ∧
    (((Director.new "E").add_cut (Cut.new "intro" 0 3)).add_cut
        (Cut.new "battle" 3 8)).find_active_cut 3 = some (1, Cut.new "battle" 3 8) ∧
    (((Director.new "E").add_cut (Cut.new "intro" 0 3)).add_cut
        (Cut.new "battle" 3 8)).find_active_cut 10 = none := by
  have hdisj : ∀ u, ¬((Cut.new "intro" (0:ℚ) 3).contains_time u = true ∧
      (Cut.new "battle" (3:ℚ) 8).contains_time u = true) := by
    intro u h
    have h1 := h.1
    have h2 := h.2
    simp [Cut.new, Cut.contains_time] at h1 h2
    exact absurd h2.1 (not_le.2 h1.2)
  refine ⟨?_, ?_, ?_⟩
  · exact (((disjoint_cuts_find_active "E" 1).2.1 _ _ hdisj).1 (by decide)).1
  · exact ((disjoint_cuts_find_active "E" 3).2.2 "intro" "battle" 0 3 8 (by decide)).1
  · exact ((((disjoint_cuts_find_active "E" 10).2.1 _ _ hdisj).2.2) (by decide) (by decide)).1

/-! ## Duration as a 0-floored maximum -/

theorem foldl_max_spec (l : List ℚ) : ∀ (a : ℚ),
    a ≤ l.foldl max a ∧ (∀ x ∈ l, x ≤ l.foldl max a) ∧
    (l.foldl max a = a ∨ l.foldl max a ∈ l) := by
  induction l with
  | nil => intro a; simp
  | cons x l ih =>
    intro a
    have h := ih (max a x)
    refine ⟨le_trans (le_max_left a x) h.1, ?_, ?_⟩
    · intro y hy
      rcases List.mem_cons.1 hy with rfl | hy
      · exact le_trans (le_max_right a y) h.1
      · exact h.2.1 y hy
    · rcases h.2.2 with heq | hmem
      · rcases max_choice a x with h1 | h1
        · left
          simpa [h1] using heq
        · right
          rw [List.foldl_cons, heq, h1]
          exact List.mem_cons_self x l
      · right
        exact List.mem_cons_of_mem _ hmem

unseal Rat.add Rat.mul Rat.sub Rat.inv in
/-- C9 counterexample: a cut with a negative end time — `duration()` returns
0, not the (negative) maximum end time. -/
theorem duration_negative_counterexample :
    (((Director.new "E").add_cut (Cut.new "c" (-2) (-1))).sorted_cuts.map
      (fun pc => pc.2.end_time)) = [-1] ∧
    ((Director.new "E").add_cut (Cut.new "c" (-2) (-1))).duration = 0 ∧
    ((Director.new "E").add_cut (Cut.new "c" (-2) (-1))).duration ≠ -1 := by
  refine ⟨rfl, ?_, ?_⟩
  · show List.foldl max 0 [(-1 : ℚ)] = 0
    rw [List.foldl_cons, List.foldl_nil, max_eq_left (by norm_num : (-1:ℚ) ≤ 0)]
  · show List.foldl max 0 [(-1 : ℚ)] ≠ -1
    rw [List.foldl_cons, List.foldl_nil, max_eq_left (by norm_num : (-1:ℚ) ≤ 0)]
    norm_num

/-- C9 (amended): `duration()` is the maximum of 0 and the cuts' end times —
0 when there are no cuts, an upper bound on every cut's end time,
nonnegative, and either 0 or attained by some cut. -/
theorem duration_is_floored_max (d : Director) :
    (d.sorted_cuts = [] → d.duration = 0) ∧
    0 ≤ d.duration ∧
    (∀ pc ∈ d.sorted_cuts, pc.2.end_time ≤ d.duration) ∧
    (d.duration = 0 ∨ ∃ pc ∈ d.sorted_cuts, pc.2.end_time = d.duration) := by
  unfold Director.duration
  have h := foldl_max_spec (d.sorted_cuts.map fun pc => pc.2.end_time) 0
  refine ⟨fun he => by simp [he], h.1, ?_, ?_⟩
  · intro pc hpc
    exact h.2.1 _ (List.mem_map_of_mem _ hpc)
  · rcases h.2.2 with heq | hmem
    · left
      exact heq
    · right
      rcases List.mem_map.1 hmem with ⟨pc, hpc, hepc⟩
      exact ⟨pc, hpc, hepc⟩

unseal Rat.add Rat.mul Rat.sub Rat.inv in
/-- Witness for C9 at the two-cut integration director, whose duration is 8. -/
theorem duration_is_floored_max_witness :
    (3 : ℚ) ≤ (((Director.new "E").add_cut (Cut.new "intro" 0 3)).add_cut
      (Cut.new "battle" 3 8)).duration ∧
    (((Director.new "E").add_cut (Cut.new "intro" 0 3)).add_cut
      (Cut.new "battle" 3 8)).duration = 8 := by
  constructor
  · exact (duration_is_floored_max _).2.2.1 (0, Cut.new "intro" 0 3) (by decide)
  · decide

unseal Rat.add Rat.mul Rat.sub Rat.inv in
/-- C10: on sorted storage `find_active_cut` examines only two candidates —
the last sorted cut whose start time is ≤ t and the cut at index 0 — and
returns `some` exactly when one of them contains `t`, preferring the first;
consequently a time covered only by a cut at another sorted index is missed
(the `[0,2)/[1,10)/[3,4)` director at time 5), while a time covered by the
first-sorted cut is still found even when the later candidate fails
(the `[0,10)/[1,2)` director at time 3/2 prefers the later-starting cut). -/
theorem find_active_cut_two_candidates :
    (∀ (d : Director) (t : ℚ), CutsSorted d.sorted_cuts →
      d.find_active_cut t = findActiveCutSpec d t) ∧
    ((((Director.new "O").add_cut (Cut.new "a" 0 2)).add_cut
        (Cut.new "b" 1 10)).add_cut (Cut.new "c" 3 4)).find_active_cut 5 = none ∧
    ((((Director.new "O").add_cut (Cut.new "a" 0 2)).add_cut
        (Cut.new "b" 1 10)).add_cut (Cut.new "c" 3 4)).sorted_cuts.getD 1 dummyEntry =
      (1, Cut.new "b" 1 10) ∧
    (Cut.new "b" 1 10).contains_time 5 = true ∧
    (((Director.new "P").add_cut (Cut.new "a" 0 10)).add_cut
        (Cut.new "b" 1 2)).find_active_cut (3/2) = some (1, Cut.new "b" 1 2) := by
  refine ⟨fun d t hs => findActiveCut_eq_spec d t hs, ?_, ?_, ?_, ?_⟩
  · decide
  · decide
  · decide
  · decide

unseal Rat.add Rat.mul Rat.sub Rat.inv in
/-- Witness for C10: the two-candidate form evaluated on a concrete sorted
three-cut director. -/
theorem find_active_cut_two_candidates_witness :
    ((((Director.new "O").add_cut (Cut.new "a" 0 2)).add_cut
        (Cut.new "b" 1 10)).add_cut (Cut.new "c" 3 4)).find_active_cut 5 =
      findActiveCutSpec ((((Director.new "O").add_cut (Cut.new "a" 0 2)).add_cut
        (Cut.new "b" 1 10)).add_cut (Cut.new "c" 3 4)) 5 :=
  find_active_cut_two_candidates.1 _ 5 (by decide)

/-! ## Scene-graph claims -/

/-- C4: `evaluate_scene` returns the fallback unit sphere for zero visible
actors, the single visible actor's evaluated shape directly, and for N > 1
the left fold of binary unions over the visible shapes in slot order — it is
total, so composition never fails. -/
theorem evaluate_scene_cases (g : SceneGraph) (time : ℚ) :
    (g.visibleNodes time = [] → g.evaluate_scene time = SdfNode.sphere 1) ∧
    (∀ s, g.visibleNodes time = [s] → g.evaluate_scene time = s) ∧
    (∀ s r, g.visibleNodes time = s :: r → r ≠ [] →
      g.evaluate_scene time = r.foldl SdfNode.union s) := by
  unfold SceneGraph.evaluate_scene
  refine ⟨fun h => by rw [h], fun s h => by rw [h], fun s r h hr => ?_⟩
  rw [h]
  cases r with
  | nil => exact absurd rfl hr
  | cons x xs => rfl

/-- Witness for C4: a two-actor scene evaluates to one union of the two
spheres. -/
theorem evaluate_scene_cases_witness :
    ((SceneGraph.new.add_actor (Actor.new "a" (SdfNode.sphere 1))).add_actor
      (Actor.new "b" (SdfNode.sphere 2))).evaluate_scene 0 =
      SdfNode.union (SdfNode.sphere 1) (SdfNode.sphere 2) :=
  (evaluate_scene_cases _ 0).2.2 (SdfNode.sphere 1) [SdfNode.sphere 2]
    (by decide) (by decide)

/-- The transform used by the concrete parent/child example: translation by
`(10, 0, 0)`. -/
def parentExampleTransform : ActorTransform :=
  { position := ⟨10, 0, 0⟩, rotation := Quat.identity, scale := Vec3.one }

/-- The transform used by the concrete parent/child example: local offset
`(0, 5, 0)`. -/
def childExampleTransform : ActorTransform :=
  { position := ⟨0, 5, 0⟩, rotation := Quat.identity, scale := Vec3.one }

/-- The concrete two-actor parent/child scene graph of the example. -/
def parentChildGraph : SceneGraph :=
  (SceneGraph.new.add_actor
    ((Actor.new "parent" (SdfNode.sphere 1)).with_transform parentExampleTransform)).add_actor
    (((Actor.new "child" (SdfNode.sphere 1)).with_parent 0).with_transform
      childExampleTransform)

unseal Rat.add Rat.mul Rat.sub Rat.inv in
/-- C5: `get_world_transform` composes local transforms up the parent chain
by the law `position' = parent.position + parent.rotation * (parent.scale *
child.position)`, `rotation' = parent.rotation * child.rotation`,
`scale' = parent.scale * child.scale`; in particular a child at local offset
`(0,5,0)` under a parent at `(10,0,0)` with identity rotation and scale
resolves to world position `(10,5,0)`. -/
theorem world_transform_composition :
    (∀ p c : ActorTransform, p.combine c =
      { position := p.position + p.rotation * (p.scale * c.position),
        rotation := p.rotation * c.rotation,
        scale := p.scale * c.scale }) ∧
    (∀ (g : SceneGraph) (fuel id pid : Nat) (a : Actor) (pw : ActorTransform),
      g.get_actor id = some a → a.parent = some pid →
      g.get_world_transform fuel pid = some pw →
      g.get_world_transform (fuel + 1) id = some (pw.combine a.local_transform)) ∧
    ((parentChildGraph.get_world_transform 2 1).map (fun w => w.position) =
      some ⟨10, 5, 0⟩) := by
  refine ⟨fun p c => rfl, ?_, by decide⟩
  intro g fuel id pid a pw h1 h2 h3
  simp [SceneGraph.get_world_transform, h1, h2, h3]

unseal Rat.add Rat.mul Rat.sub Rat.inv in
/-- Witness for C5: one application of the composition law on the concrete
parent/child graph. -/
theorem world_transform_composition_witness :
    parentChildGraph.get_world_transform 2 1 =
      some (parentExampleTransform.combine childExampleTransform) :=
  world_transform_composition.2.1 parentChildGraph 1 1 0
    (((Actor.new "child" (SdfNode.sphere 1)).with_parent 0).with_transform
      childExampleTransform)
    parentExampleTransform (by decide) (by decide) (by decide)

/-- One step of the parent relation: the parent of a stored actor, `none`
for a parentless actor or an unknown/vacant handle. -/
def parentOf (g : SceneGraph) (id : Nat) : Option Nat :=
  (g.get_actor id).bind (fun a => a.parent)

/-- Iterated parent chain: `chainAt g n id` is the n-th ancestor, or `none`
once the chain has ended (at a parentless actor or an unknown handle). -/
def chainAt (g : SceneGraph) : Nat → Nat → Option Nat
  | 0, id => some id
  | n + 1, id =>
    match parentOf g id with
    | none => none
    | some p => chainAt g n p

/-- A graph whose parent chains all terminate. -/
def AcyclicParents (g : SceneGraph) : Prop := ∀ id, ∃ n, chainAt g n id = none

theorem get_world_transform_of_chain_ends (g : SceneGraph) :
    ∀ (n id : Nat), chainAt g (n + 1) id = none →
      (g.get_world_transform (n + 1) id).isSome = true := by
  intro n
  induction n with
  | zero =>
    intro id h
    have hp : parentOf g id = none := by
      by_contra hcon
      rcases Option.ne_none_iff_exists'.1 hcon with ⟨p, hp⟩
      simp [chainAt, hp] at h
    unfold SceneGraph.get_world_transform
    cases ha : g.get_actor id with
    | none => simp
    | some a =>
      cases hpar : a.parent with
      | none => simp [hpar]
      | some p => simp [parentOf, ha, hpar] at hp
  | succ m ih =>
    intro id h
    cases hp : parentOf g id with
    | none =>
      unfold SceneGraph.get_world_transform
      cases ha : g.get_actor id with
      | none => simp
      | some a =>
        cases hpar : a.parent with
        | none => simp [hpar]
        | some p => simp [parentOf, ha, hpar] at hp
    | some p =>
      have hchain : chainAt g (m + 1) p = none := by
        rw [show m + 1 + 1 = m + 2 from rfl] at h
        simpa [chainAt, hp] using h
      have hsome := ih p hchain
      have ha : ∃ a, g.get_actor id = some a ∧ a.parent = some p := by
        unfold parentOf at hp
        cases hga : g.get_actor id with
        | none => simp [hga] at hp
        | some a => exact ⟨a, rfl, by simpa [hga] using hp⟩
      rcases ha with ⟨a, hga, hpar⟩
      unfold SceneGraph.get_world_transform
      rcases Option.isSome_iff_exists.1 hsome with ⟨w, hw⟩
      simp [hga, hpar, hw]

/-- A self-parenting scene graph: actor 0 is its own parent. -/
def cyclicGraph : SceneGraph :=
  SceneGraph.new.add_actor ((Actor.new "x" (SdfNode.sphere 1)).with_parent 0)

/-- C6: on every scene graph whose parent chains all terminate,
`get_world_transform` succeeds for every id with enough recursion budget;
and the recursion is unbounded by construction — on a cyclic parent
assignment no budget suffices. -/
theorem world_transform_termination :
    (∀ g : SceneGraph, AcyclicParents g →
      ∀ id, ∃ fuel, (g.get_world_transform fuel id).isSome = true) ∧
    ((∀ n, chainAt cyclicGraph n 0 = some 0) ∧
      ∀ fuel, cyclicGraph.get_world_transform fuel 0 = none) := by
  refine ⟨?_, ?_, ?_⟩
  · intro g hg id
    rcases hg id with ⟨n, hn⟩
    cases n with
    | zero => simp [chainAt] at hn
    | succ m => exact ⟨m + 1, get_world_transform_of_chain_ends g m id hn⟩
  · intro n
    induction n with
    | zero => rfl
    | succ m ih => simpa [chainAt, parentOf] using ih
  · intro fuel
    have h0 : cyclicGraph.get_actor 0 =
        some ((Actor.new "x" (SdfNode.sphere 1)).with_parent 0) := rfl
    have hpar : ((Actor.new "x" (SdfNode.sphere 1)).with_parent 0).parent = some 0 := rfl
    induction fuel with
    | zero => rfl
    | succ f ih => simp [SceneGraph.get_world_transform, h0, hpar, ih]

/-- Witness for C6: the acyclic parent/child example graph resolves for every
id (shown at the child). -/
theorem world_transform_termination_witness :
    ∃ fuel, (parentChildGraph.get_world_transform fuel 1).isSome = true :=
  world_transform_termination.1 parentChildGraph
    (by
      intro id
      match id with
      | 0 => exact ⟨1, rfl⟩
      | 1 => exact ⟨2, rfl⟩
      | n + 2 => exact ⟨1, rfl⟩)
    1

/-! ## Camera claims -/

/-- Helper: the component-wise description of `CameraTrack.evaluate`. -/
theorem evaluate_components (tr : CameraTrack) (t : ℚ) :
    ((tr.evaluate t).target = ⟨(tr.target_timeline.get_value "target.x" t).getD 0,
      (tr.target_timeline.get_value "target.y" t).getD 0,
      (tr.target_timeline.get_value "target.z" t).getD 0⟩) ∧
    ((tr.evaluate t).fov = tr.fov_track.evaluate t) ∧
    (tr.shake_amplitude > 0 →
      (tr.evaluate t).position =
        ⟨(tr.position_timeline.get_value "position.x" t).getD 0 +
            fsin (t * (tr.shake_frequency * TAU)) * tr.shake_amplitude,
          (tr.position_timeline.get_value "position.y" t).getD 0 +
            fcos (t * (tr.shake_frequency * TAU) * 13 / 10 + 0) *
              tr.shake_amplitude * (7 / 10),
          (tr.position_timeline.get_value "position.z" t).getD 5⟩) ∧
    (tr.shake_amplitude ≤ 0 →
      (tr.evaluate t).position =
        ⟨(tr.position_timeline.get_value "position.x" t).getD 0,
          (tr.position_timeline.get_value "position.y" t).getD 0,
          (tr.position_timeline.get_value "position.z" t).getD 5⟩) := by
  unfold CameraTrack.evaluate
  refine ⟨rfl, rfl, fun h => ?_, fun h => ?_⟩
  · simp only [if_pos h]
  · simp only [if_neg (not_lt.2 h)]

/-- C7: `evaluate` adds the sinusoidal shake offsets to the position's x and
y components only when the amplitude is positive, leaves target and fov
untouched by shake, and returns the raw channel values (with the 0/0/5
fallbacks) when the amplitude is ≤ 0. -/
theorem camera_shake_additive (tr : CameraTrack) (t : ℚ) :
    ((tr.evaluate t).target = ⟨(tr.target_timeline.get_value "target.x" t).getD 0,
      (tr.target_timeline.get_value "target.y" t).getD 0,
      (tr.target_timeline.get_value "target.z" t).getD 0⟩) ∧
    ((tr.evaluate t).fov = tr.fov_track.evaluate t) ∧
    (tr.shake_amplitude > 0 →
      (tr.evaluate t).position =
        ⟨(tr.position_timeline.get_value "position.x" t).getD 0 +
            fsin (t * (tr.shake_frequency * TAU)) * tr.shake_amplitude,
          (tr.position_timeline.get_value "position.y" t).getD 0 +
            fcos (t * (tr.shake_frequency * TAU) * 13 / 10 + 0) *
              tr.shake_amplitude * (7 / 10),
          (tr.position_timeline.get_value "position.z" t).getD 5⟩) ∧
    (tr.shake_amplitude ≤ 0 →
      (tr.evaluate t).position =
        ⟨(tr.position_timeline.get_value "position.x" t).getD 0,
          (tr.position_timeline.get_value "position.y" t).getD 0,
          (tr.position_timeline.get_value "position.z" t).getD 5⟩) :=
  evaluate_components tr t

unseal Rat.add Rat.mul Rat.sub Rat.inv in
/-- Witness for C7: both shake branches at concrete tracks. -/
theorem camera_shake_additive_witness :
    ((CameraTrack.default.apply_preset (CameraWork.shake 1 1) 0 0).evaluate 2).position =
      ⟨((CameraTrack.default.apply_preset (CameraWork.shake 1 1) 0 0).position_timeline.get_value
          "position.x" 2).getD 0 + fsin (2 * (1 * TAU)) * 1,
        ((CameraTrack.default.apply_preset (CameraWork.shake 1 1) 0 0).position_timeline.get_value
          "position.y" 2).getD 0 + fcos (2 * (1 * TAU) * 13 / 10 + 0) * 1 * (7 / 10),
        ((CameraTrack.default.apply_preset (CameraWork.shake 1 1) 0 0).position_timeline.get_value
          "position.z" 2).getD 5⟩ ∧
    (CameraTrack.default.evaluate 2).position =
      ⟨(CameraTrack.default.position_timeline.get_value "position.x" 2).getD 0,
        (CameraTrack.default.position_timeline.get_value "position.y" 2).getD 0,
        (CameraTrack.default.position_timeline.get_value "position.z" 2).getD 5⟩ := by
  constructor
  · have h := (camera_shake_additive
      (CameraTrack.default.apply_preset (CameraWork.shake 1 1) 0 0) 2).2.2.1 (by decide)
    simpa using h
  · exact (camera_shake_additive CameraTrack.default 2).2.2.2 (by decide)

/-! ## Keyframe-insertion sampling -/

theorem sampleSorted_insert (k : Keyframe) : ∀ (ks : List Keyframe) (prev : Keyframe),
    prev.time ≤ k.time → sampleSorted prev (insertKeyframe ks k) k.time = k.value := by
  intro ks
  induction ks with
  | nil =>
    intro prev hprev
    simp [insertKeyframe, sampleSorted, not_lt.2 (le_refl k.time), lerpKeys]
  | cons k'' rest ih =>
    intro prev hprev
    by_cases h : k.time < k''.time
    · simp only [insertKeyframe, if_pos h, sampleSorted, if_neg (lt_irrefl k.time),
        if_pos h]
      simp [lerpKeys]
    · simp only [insertKeyframe, if_neg h, sampleSorted, if_neg (not_lt.2 (not_lt.1 h))]
      exact ih k'' (not_lt.1 h)

/-- Sampling a track at the exact time of a freshly added keyframe yields the
keyframe's value. -/
theorem sample_add_keyframe (tr : Track) (k : Keyframe) :
    (tr.add_keyframe k).sample k.time = some k.value := by
  unfold Track.add_keyframe Track.sample
  cases hks : tr.keyframes with
  | nil => simp [insertKeyframe, sampleSorted, lt_irrefl]
  | cons k' ks =>
    by_cases h : k.time < k'.time
    · simp only [insertKeyframe, if_pos h, if_neg (lt_irrefl k.time)]
      rw [show sampleSorted k (k' :: ks) k.time =
          if k.time < k'.time then lerpKeys k k' k.time
          else sampleSorted k' ks k.time from rfl]
      rw [if_pos h]
      simp [lerpKeys]
    · simp only [insertKeyframe, if_neg h, if_neg (not_lt.2 (not_lt.1 h))]
      exact congrArg some (sampleSorted_insert k ks k' (not_lt.1 h))

/-! ## Channel bookkeeping for presets -/

theorem find?_map_name (f : Track → Track) (hf : ∀ trk, (f trk).name = trk.name)
    (l : List Track) (nm : String) :
    (l.map f).find? (fun trk => trk.name == nm) =
      (l.find? (fun trk => trk.name == nm)).map f := by
  induction l with
  | nil => rfl
  | cons x xs ih =>
    by_cases h : (x.name == nm) = true
    · rw [List.map_cons,
        List.find?_cons_of_pos (p := fun trk : Track => trk.name == nm) _
          (show ((f x).name == nm) = true by rw [hf]; exact h),
        List.find?_cons_of_pos (p := fun trk : Track => trk.name == nm) _ h]
      rfl
    · rw [List.map_cons,
        List.find?_cons_of_neg (p := fun trk : Track => trk.name == nm) _
          (show ¬((f x).name == nm) = true by rw [hf]; exact h),
        List.find?_cons_of_neg (p := fun trk : Track => trk.name == nm) _ h, ih]

/-- The position-channel update map used by `CameraTrack.add_keyframe`. -/
def posChannelMap (time : ℚ) (position : Vec3) (trk : Track) : Track :=
  if trk.name == "position.x" then trk.add_keyframe ⟨time, position.x⟩
  else if trk.name == "position.y" then trk.add_keyframe ⟨time, position.y⟩
  else if trk.name == "position.z" then trk.add_keyframe ⟨time, position.z⟩
  else trk

/-- The target-channel update map used by `CameraTrack.add_keyframe`. -/
def tgtChannelMap (time : ℚ) (target : Vec3) (trk : Track) : Track :=
  if trk.name == "target.x" then trk.add_keyframe ⟨time, target.x⟩
  else if trk.name == "target.y" then trk.add_keyframe ⟨time, target.y⟩
  else if trk.name == "target.z" then trk.add_keyframe ⟨time, target.z⟩
  else trk

theorem add_keyframe_tracks_eq (tr : CameraTrack) (time : ℚ) (p tg : Vec3) (fov : ℚ) :
    (tr.add_keyframe time p tg fov).position_timeline.tracks =
      tr.position_timeline.tracks.map (posChannelMap time p) ∧
    (tr.add_keyframe time p tg fov).target_timeline.tracks =
      tr.target_timeline.tracks.map (tgtChannelMap time tg) ∧
    (tr.add_keyframe time p tg fov).shake_amplitude = tr.shake_amplitude := by
  refine ⟨?_, ?_, rfl⟩ <;> rfl

theorem posChannelMap_name (time : ℚ) (p : Vec3) (trk : Track) :
    (posChannelMap time p trk).name = trk.name := by
  unfold posChannelMap Track.add_keyframe
  split
  · rfl
  · split
    · rfl
    · split <;> rfl

theorem tgtChannelMap_name (time : ℚ) (tg : Vec3) (trk : Track) :
    (tgtChannelMap time tg trk).name = trk.name := by
  unfold tgtChannelMap Track.add_keyframe
  split
  · rfl
  · split
    · rfl
    · split <;> rfl

theorem add_keyframe_find_px (tr : CameraTrack) (time : ℚ) (p tg : Vec3) (fov : ℚ) :
    ((tr.add_keyframe time p tg fov).position_timeline.tracks.find?
      (fun trk => trk.name == "position.x")) =
    (tr.position_timeline.tracks.find? (fun trk => trk.name == "position.x")).map
      (fun trk => trk.add_keyframe ⟨time, p.x⟩) := by
  rw [(add_keyframe_tracks_eq tr time p tg fov).1,
    find?_map_name _ (posChannelMap_name time p)]
  cases hf : tr.position_timeline.tracks.find? (fun trk => trk.name == "position.x") with
  | none => rfl
  | some trk =>
    have hp := List.find?_some hf
    simp only [beq_iff_eq] at hp
    simp [posChannelMap, hp]

theorem add_keyframe_find_py (tr : CameraTrack) (time : ℚ) (p tg : Vec3) (fov : ℚ) :
    ((tr.add_keyframe time p tg fov).position_timeline.tracks.find?
      (fun trk => trk.name == "position.y")) =
    (tr.position_timeline.tracks.find? (fun trk => trk.name == "position.y")).map
      (fun trk => trk.add_keyframe ⟨time, p.y⟩) := by
  rw [(add_keyframe_tracks_eq tr time p tg fov).1,
    find?_map_name _ (posChannelMap_name time p)]
  cases hf : tr.position_timeline.tracks.find? (fun trk => trk.name == "position.y") with
  | none => rfl
  | some trk =>
    have hp := List.find?_some hf
    simp only [beq_iff_eq] at hp
    simp [posChannelMap, hp]

theorem add_keyframe_find_tx (tr : CameraTrack) (time : ℚ) (p tg : Vec3) (fov : ℚ) :
    ((tr.add_keyframe time p tg fov).target_timeline.tracks.find?
      (fun trk => trk.name == "target.x")) =
    (tr.target_timeline.tracks.find? (fun trk => trk.name == "target.x")).map
      (fun trk => trk.add_keyframe ⟨time, tg.x⟩) := by
  rw [(add_keyframe_tracks_eq tr time p tg fov).2.1,
    find?_map_name _ (tgtChannelMap_name time tg)]
  cases hf : tr.target_timeline.tracks.find? (fun trk => trk.name == "target.x") with
  | none => rfl
  | some trk =>
    have hp := List.find?_some hf
    simp only [beq_iff_eq] at hp
    simp [tgtChannelMap, hp]

/-! ## Pan and Orbit presets -/

theorem evaluate_position_x (tr : CameraTrack) (t : ℚ) (h : tr.shake_amplitude ≤ 0) :
    (tr.evaluate t).position.x = (tr.position_timeline.get_value "position.x" t).getD 0 := by
  rw [(evaluate_components tr t).2.2.2 h]

theorem evaluate_target_x (tr : CameraTrack) (t : ℚ) :
    (tr.evaluate t).target.x = (tr.target_timeline.get_value "target.x" t).getD 0 := by
  rw [(evaluate_components tr t).1]

/-- Pan: the evaluated end-state X position is the start-state X plus exactly
`speed * d`, provided shake is disabled and the `position.x` channel exists. -/
theorem pan_end_position_x (tr : CameraTrack) (speed s d : ℚ)
    (hamp : tr.shake_amplitude ≤ 0)
    (hx : (tr.position_timeline.tracks.find?
      (fun trk => trk.name == "position.x")).isSome = true) :
    ((tr.apply_preset (CameraWork.pan speed) s d).evaluate (s + d)).position.x =
      (tr.evaluate s).position.x + speed * d := by
  rcases Option.isSome_iff_exists.1 hx with ⟨trk0, htrk0⟩
  have happ : tr.apply_preset (CameraWork.pan speed) s d =
      (tr.add_keyframe s (tr.evaluate s).position (tr.evaluate s).target
        (tr.evaluate s).fov).add_keyframe (s + d)
        ((tr.evaluate s).position + ⟨speed * d, 0, 0⟩)
        ((tr.evaluate s).target + ⟨speed * d, 0, 0⟩) (tr.evaluate s).fov := rfl
  have hamp2 : (tr.apply_preset (CameraWork.pan speed) s d).shake_amplitude ≤ 0 := by
    rw [happ]
    exact hamp
  rw [evaluate_position_x _ _ hamp2, happ]
  unfold Timeline.get_value
  rw [add_keyframe_find_px, add_keyframe_find_px, htrk0]
  simp only [Option.map_some', Option.some_bind]
  rw [show ((tr.evaluate s).position + ⟨speed * d, 0, 0⟩).x =
    (tr.evaluate s).position.x + speed * d from rfl]
  rw [sample_add_keyframe]
  rfl

/-- Pan: the target shifts identically (no shake applies to the target). -/
theorem pan_end_target_x (tr : CameraTrack) (speed s d : ℚ)
    (hx : (tr.target_timeline.tracks.find?
      (fun trk => trk.name == "target.x")).isSome = true) :
    ((tr.apply_preset (CameraWork.pan speed) s d).evaluate (s + d)).target.x =
      (tr.evaluate s).target.x + speed * d := by
  rcases Option.isSome_iff_exists.1 hx with ⟨trk0, htrk0⟩
  have happ : tr.apply_preset (CameraWork.pan speed) s d =
      (tr.add_keyframe s (tr.evaluate s).position (tr.evaluate s).target
        (tr.evaluate s).fov).add_keyframe (s + d)
        ((tr.evaluate s).position + ⟨speed * d, 0, 0⟩)
        ((tr.evaluate s).target + ⟨speed * d, 0, 0⟩) (tr.evaluate s).fov := rfl
  rw [evaluate_target_x, happ]
  unfold Timeline.get_value
  rw [add_keyframe_find_tx, add_keyframe_find_tx, htrk0]
  simp only [Option.map_some', Option.some_bind]
  rw [show ((tr.evaluate s).target + ⟨speed * d, 0, 0⟩).x =
    (tr.evaluate s).target.x + speed * d from rfl]
  rw [sample_add_keyframe]
  rfl

theorem fold_add_keyframe_find_py (timef : Nat → ℚ) (posf : Nat → Vec3)
    (tgtf : Nat → Vec3) (fovf : Nat → ℚ) : ∀ (idxs : List Nat) (tr0 : CameraTrack),
    (CameraTrack.position_timeline (idxs.foldl (fun acc i => acc.add_keyframe (timef i) (posf i) (tgtf i) (fovf i)) tr0)).tracks.find? (fun trk => trk.name == "position.y") =
    (tr0.position_timeline.tracks.find? (fun trk => trk.name == "position.y")).map
      (fun trk => idxs.foldl
        (fun acc i => acc.add_keyframe ⟨timef i, (posf i).y⟩) trk) := by
  intro idxs
  induction idxs with
  | nil =>
    intro tr0
    simp only [List.foldl_nil]
    cases tr0.position_timeline.tracks.find? (fun trk => trk.name == "position.y") <;> rfl
  | cons i idxs ih =>
    intro tr0
    simp only [List.foldl_cons]
    rw [ih, add_keyframe_find_py, Option.map_map]
    cases tr0.position_timeline.tracks.find? (fun trk => trk.name == "position.y") <;> rfl

theorem length_insertKeyframe (k : Keyframe) : ∀ (l : List Keyframe),
    (insertKeyframe l k).length = l.length + 1 := by
  intro l
  induction l with
  | nil => rfl
  | cons k' ks ih =>
    by_cases h : k.time < k'.time
    · simp [insertKeyframe, if_pos h]
    · simp [insertKeyframe, if_neg h, ih]

theorem length_fold_add_keyframe (kf : Nat → Keyframe) : ∀ (idxs : List Nat) (trk : Track),
    ((idxs.foldl (fun acc i => acc.add_keyframe (kf i)) trk).keyframes.length) =
      trk.keyframes.length + idxs.length := by
  intro idxs
  induction idxs with
  | nil => intro trk; rfl
  | cons i idxs ih =>
    intro trk
    simp only [List.foldl_cons, ih, List.length_cons]
    simp [Track.add_keyframe, length_insertKeyframe]
    omega

unseal Rat.add Rat.mul Rat.sub Rat.inv in
/-- C8 counterexample: applying `Pan` to a track with active shake does not
move the evaluated end X by exactly `speed * d` — the shake offset at the
end time is added on top; and `Orbit` on a track whose target height is 7 and
position height is 2 writes keyframes at height 9 (target plus position
height), not at the position height recorded at the start. -/
theorem pan_with_shake_counterexample :
    (¬((((CameraTrack.default.apply_preset (CameraWork.shake 1 1) 0 0).apply_preset
        (CameraWork.pan 1) 0 1).evaluate (0 + 1)).position.x =
      ((CameraTrack.default.apply_preset (CameraWork.shake 1 1) 0 0).evaluate
        0).position.x + 1 * 1)) ∧
    (((CameraTrack.default.add_keyframe 0 ⟨0, 2, 5⟩ ⟨0, 7, 0⟩ 1).evaluate
        0).position.y = 2 ∧
      (((CameraTrack.default.add_keyframe 0 ⟨0, 2, 5⟩ ⟨0, 7, 0⟩ 1).apply_preset
          (CameraWork.orbit 1 1) 0 1).position_timeline.get_value "position.y" 1) =
        some 9) := by
  refine ⟨by decide, by decide, by decide⟩

/-- C8 (amended): with shake disabled and the standard channels present,
`Pan{speed}` over `[s, s+d]` moves the evaluated end-state X by exactly
`speed*d` (and the target symmetrically, shake-independent); and
`Orbit{radius, speed}` adds 9 keyframes to the `position.y` channel at the
evenly spaced times `s + d*i/8` whose value is constantly the height
recorded at `s` (the target height plus the position height). -/
theorem pan_orbit_presets (tr : CameraTrack) (s d : ℚ) :
    (∀ speed, tr.shake_amplitude ≤ 0 →
      (tr.position_timeline.tracks.find?
        (fun trk => trk.name == "position.x")).isSome = true →
      ((tr.apply_preset (CameraWork.pan speed) s d).evaluate (s + d)).position.x =
        (tr.evaluate s).position.x + speed * d) ∧
    (∀ speed,
      (tr.target_timeline.tracks.find?
        (fun trk => trk.name == "target.x")).isSome = true →
      ((tr.apply_preset (CameraWork.pan speed) s d).evaluate (s + d)).target.x =
        (tr.evaluate s).target.x + speed * d) ∧
    (∀ radius speed,
      ((tr.apply_preset (CameraWork.orbit radius speed) s d).position_timeline.tracks.find?
        (fun trk => trk.name == "position.y")) =
      (tr.position_timeline.tracks.find? (fun trk => trk.name == "position.y")).map
        (fun trk => (List.range 9).foldl (fun acc i => acc.add_keyframe
          ⟨s + d * i / 8, (tr.evaluate s).target.y + (tr.evaluate s).position.y⟩) trk)) ∧
    (∀ radius speed trk,
      tr.position_timeline.tracks.find? (fun t0 => t0.name == "position.y") = some trk →
      ∃ trk', (tr.apply_preset (CameraWork.orbit radius speed) s
          d).position_timeline.tracks.find? (fun t0 => t0.name == "position.y") =
            some trk' ∧
        trk'.keyframes.length = trk.keyframes.length + 9) := by
  have horbit : ∀ radius speed : ℚ,
      ((tr.apply_preset (CameraWork.orbit radius speed) s d).position_timeline.tracks.find?
        (fun trk => trk.name == "position.y")) =
      (tr.position_timeline.tracks.find? (fun trk => trk.name == "position.y")).map
        (fun trk => (List.range 9).foldl (fun acc i => acc.add_keyframe
          ⟨s + d * i / 8, (tr.evaluate s).target.y + (tr.evaluate s).position.y⟩) trk) := by
    intro radius speed
    have happ : tr.apply_preset (CameraWork.orbit radius speed) s d =
        (List.range 9).foldl (fun acc i => acc.add_keyframe (s + d * i / 8)
          ((tr.evaluate s).target + ⟨radius * fcos (speed * ((s + d * i / 8) - s)),
            (tr.evaluate s).position.y, radius * fsin (speed * ((s + d * i / 8) - s))⟩)
          (tr.evaluate s).target (tr.evaluate s).fov) tr := rfl
    rw [happ, fold_add_keyframe_find_py]
    cases tr.position_timeline.tracks.find? (fun trk => trk.name == "position.y") <;> rfl
  refine ⟨fun speed hamp hx => pan_end_position_x tr speed s d hamp hx,
    fun speed hx => pan_end_target_x tr speed s d hx, horbit, ?_⟩
  intro radius speed trk htrk
  refine ⟨(List.range 9).foldl (fun acc i => acc.add_keyframe
    ⟨s + d * i / 8, (tr.evaluate s).target.y + (tr.evaluate s).position.y⟩) trk, ?_, ?_⟩
  · rw [horbit radius speed, htrk]
    rfl
  · have hlen := length_fold_add_keyframe (fun i =>
      (⟨s + d * i / 8, (tr.evaluate s).target.y + (tr.evaluate s).position.y⟩ : Keyframe))
      (List.range 9) trk
    simpa using hlen

unseal Rat.add Rat.mul Rat.sub Rat.inv in
/-- Witness for C8 (amended) at the default track: `Pan(2)` over 5 seconds
moves the end X by 10. -/
theorem pan_orbit_presets_witness :
    ((CameraTrack.default.apply_preset (CameraWork.pan 2) 0 5).evaluate
      (0 + 5)).position.x = (CameraTrack.default.evaluate 0).position.x + 2 * 5 :=
  (pan_orbit_presets CameraTrack.default 0 5).1 2 (by decide) (by decide)

end Alice
